import Mathlib

/-!
Verification of the PLRS (Public Legal Record System) integrity core.

The Python sources are embedded shallowly:

* JSON data (the payload of every record, index entry, bundle and custody
  log) is modelled by the inductive type `JValue`.  Python dictionaries are
  association lists `List (String × JValue)`; in every situation modelled
  here they come from parsed JSON, so their keys are distinct.  Finite
  floats do not occur in the claims under study and are omitted from the
  model; the non-finite floats `nan`, `infinity` and `negInfinity` are kept
  because `json.dumps` treats them specially.
* `json.dumps(data, sort_keys=True, ensure_ascii=False, separators=(",", ":"))`
  is modelled by `jsonDumps`.  CPython serializes a dict by rendering the
  items in ascending key order (keys are unique); the model renders every
  item and then sorts the rendered pairs by key with the code-point order
  `keyLe`, which yields the same text for unique keys.
* `hashlib.new(algorithm)` followed by `update`/`hexdigest` is modelled by a
  registry parameter `hashNew : HashReg`; `hashlib.new` raising `ValueError`
  for an unknown name corresponds to the registry returning `none`.
* Python semantics that the sources rely on are modelled by the `py*`
  helpers: `dict.get` (`pyGetD`), truthiness (`pyFalsy`), `==` between a
  JSON value and an `int` or `str` (`pyEqIntJ`, `pyJEqStr`), `<=` between
  JSON values (`pyLeJ`, a `TypeError` being `Except.error`), and `int(x)`
  (`pyIntCast`).
* Functions that can raise are translated into `Except`; functions that
  mutate their argument return the final state of that argument.
* The audit functions write findings to stderr as formatted strings; the
  model returns them as structured values carrying exactly the data that is
  interpolated into the corresponding message.
-/

/-- JSON values as produced by `json.load`, together with the non-finite
floats accepted by Python's `json` module. -/
inductive JValue : Type where
  | null
  | bool (b : Bool)
  | int (n : Int)
  | str (s : String)
  | nan
  | infinity
  | negInfinity
  | arr (xs : List JValue)
  | obj (kvs : List (String × JValue))
  deriving Repr, Inhabited

/-- A parsed JSON object / Python dict. -/
abbrev Jobj : Type := List (String × JValue)

/-- Model of `d.get(k)`: the value stored at `k`, or `None` when the key is absent.
Python's `None` and JSON `null` are both `JValue.null`. -/
def pyGetD : Jobj → String → JValue
  | [], _ => .null
  | (k', v) :: rest, k => if k' == k then v else pyGetD rest k

/-- Python truthiness of a JSON value (`not x`). -/
def pyFalsy : JValue → Bool
  | .null => true
  | .bool b => !b
  | .int n => n == 0
  | .str s => s == ""
  | .nan => false
  | .infinity => false
  | .negInfinity => false
  | .arr xs => xs.isEmpty
  | .obj kvs => kvs.isEmpty

/-- Python `v == s` for a string literal `s` (a `str` equals only an equal
`str`). -/
def pyJEqStr (v : JValue) (s : String) : Bool :=
  match v with
  | .str t => t == s
  | _ => false

/-- Python `v == n` for an `int` `n`; `bool` is an `int` subclass, every
other JSON value compares unequal (including `nan`, which is never equal). -/
def pyEqIntJ (v : JValue) (n : Int) : Bool :=
  match v with
  | .int m => m == n
  | .bool b => (if b then (1 : Int) else 0) == n
  | _ => false

/-- Whether `v` is exactly the integer `n` (used to state hypotheses about index
sequences; unlike `pyEqIntJ` this does not identify `True` with `1`). -/
def jIsInt (v : JValue) (n : Int) : Bool :=
  match v with
  | .int m => m == n
  | _ => false

/-- Python `isinstance(v, dict)`. -/
def isObj : JValue → Bool
  | .obj _ => true
  | _ => false

/-- Python `v is None`. -/
def isNull : JValue → Bool
  | .null => true
  | _ => false

/-- Python `isinstance(v, str) and v` (a non-empty string). -/
def isNonemptyStr : JValue → Bool
  | .str s => !(s == "")
  | _ => false

/-- The string payload of `v` (only used after `isinstance(v, str)` has been
checked). -/
def strOf : JValue → String
  | .str s => s
  | _ => ""

/-- Code-point comparison of two character lists: Python's `a <= b` on
strings. -/
def charListLe : List Char → List Char → Bool
  | [], _ => true
  | _ :: _, [] => false
  | a :: as, b :: bs =>
    if a.toNat < b.toNat then true
    else if b.toNat < a.toNat then false
    else charListLe as bs

/-- Python `a <= b` on strings (code-point lexicographic order). -/
def keyLe (a b : String) : Bool := charListLe a.data b.data

/-- Python `a <= b` between JSON values: strings compare by code points,
`int`/`bool` and the non-finite floats compare numerically (`nan` is below
nothing), every other combination raises `TypeError`.  (Python also orders
two lists elementwise; lists never occur as comparison operands in the code
under study and are modelled as an error.) -/
def pyLeJ : JValue → JValue → Except Unit Bool
  | .str a, .str b => .ok (charListLe a.data b.data)
  | .int a, .int b => .ok (a ≤ b)
  | .int a, .bool b => .ok (a ≤ if b then 1 else 0)
  | .bool a, .int b => .ok ((if a then (1 : Int) else 0) ≤ b)
  | .bool a, .bool b => .ok ((if a then (1 : Int) else 0) ≤ if b then 1 else 0)
  | .int _, .infinity => .ok true
  | .bool _, .infinity => .ok true
  | .infinity, .int _ => .ok false
  | .infinity, .bool _ => .ok false
  | .int _, .negInfinity => .ok false
  | .bool _, .negInfinity => .ok false
  | .negInfinity, .int _ => .ok true
  | .negInfinity, .bool _ => .ok true
  | .infinity, .infinity => .ok true
  | .negInfinity, .negInfinity => .ok true
  | .negInfinity, .infinity => .ok true
  | .infinity, .negInfinity => .ok false
  | .nan, .int _ => .ok false
  | .nan, .bool _ => .ok false
  | .nan, .nan => .ok false
  | .nan, .infinity => .ok false
  | .nan, .negInfinity => .ok false
  | .int _, .nan => .ok false
  | .bool _, .nan => .ok false
  | .infinity, .nan => .ok false
  | .negInfinity, .nan => .ok false
  | _, _ => .error ()

/-- A Python whitespace character, as stripped by `int(str)`. -/
def pyIsSpace (c : Char) : Bool :=
  c == ' ' || c == '\t' || c == '\n' || c == '\x0d' || c == '\x0b' || c == '\x0c'

/-- Digit-string parsing for `int(str)`: digits possibly separated by single
underscores, accumulated into a `Nat`. -/
def pyDigits : List Char → Nat → Option Nat
  | [], acc => some acc
  | '_' :: c :: cs, acc =>
    if c.isDigit then pyDigits cs (acc * 10 + (c.toNat - 48)) else none
  | c :: cs, acc =>
    if c.isDigit then pyDigits cs (acc * 10 + (c.toNat - 48)) else none

/-- Python `int(s)` for a decimal string, modelled on its ASCII fragment:
optional surrounding ASCII whitespace, an optional sign, then ASCII digits
with optional single underscores between them; `none` models `ValueError`.
Python's `int()` additionally accepts non-ASCII Unicode decimal digits and
whitespace (e.g. Arabic-Indic digits); every hypothesis stated over this
model therefore confines string inputs to ASCII, where the model is
faithful. -/
def pyStrToInt (s : String) : Option Int :=
  let cs := (s.data.dropWhile pyIsSpace).reverse.dropWhile pyIsSpace |>.reverse
  match cs with
  | [] => none
  | c :: rest =>
    if c = '+' then
      match rest with
      | [] => none
      | c2 :: rest2 =>
        if c2.isDigit then (pyDigits (c2 :: rest2) 0).map Int.ofNat else none
    else if c = '-' then
      match rest with
      | [] => none
      | c2 :: rest2 =>
        if c2.isDigit then (pyDigits (c2 :: rest2) 0).map (fun n => -(n : Int)) else none
    else if c.isDigit then (pyDigits (c :: rest) 0).map Int.ofNat else none

/-- Python `int(v)` on a JSON value: ints and bools convert, decimal strings
parse, everything else (`None`, containers, and the non-finite floats)
raises. -/
def pyIntCast : JValue → Option Int
  | .int n => some n
  | .bool b => some (if b then 1 else 0)
  | .str s => pyStrToInt s
  | _ => none

/-- One digit of lowercase hex. -/
def hexDigit (n : Nat) : Char :=
  if n < 10 then Char.ofNat (48 + n) else Char.ofNat (87 + n)

/-- The escaping applied by `json.dumps(..., ensure_ascii=False)` to one
character of a string: backslash, double quote and the control characters
below U+0020 are escaped (with short escapes for backspace, tab, newline,
form feed and carriage return), everything else is passed through. -/
def escapeChar (c : Char) : List Char :=
  if c == '\\' then ['\\', '\\']
  else if c == '\x22' then ['\\', '\x22']
  else if c.toNat ≥ 32 then [c]
  else if c == '\x08' then ['\\', 'b']
  else if c == '\t' then ['\\', 't']
  else if c == '\n' then ['\\', 'n']
  else if c == '\x0c' then ['\\', 'f']
  else if c == '\x0d' then ['\\', 'r']
  else ['\\', 'u', '0', '0', hexDigit (c.toNat / 16), hexDigit (c.toNat % 16)]

/-- JSON string literal rendering used by `json.dumps`. -/
def jsonQuote (s : String) : String :=
  ⟨'\x22' :: (s.data.flatMap escapeChar) ++ ['\x22']⟩

/-- Join rendered items with the `","` item separator. -/
def joinComma : List String → String
  | [] => ""
  | [x] => x
  | x :: y :: xs => x ++ "," ++ joinComma (y :: xs)

/-- Insert a rendered key/value pair into a list sorted by key. -/
def orderedInsertKey (x : String × String) :
    List (String × String) → List (String × String)
  | [] => [x]
  | y :: ys => if keyLe x.1 y.1 then x :: y :: ys else y :: orderedInsertKey x ys

/-- Sort rendered key/value pairs by key (the `sort_keys=True` order; dict
keys are unique, so any sort by code-point key order yields the text CPython
produces). -/
def sortByKey : List (String × String) → List (String × String)
  | [] => []
  | x :: xs => orderedInsertKey x (sortByKey xs)

mutual

/-- Model of `json.dumps(v, sort_keys=True, ensure_ascii=False,
separators=(",", ":"))`: compact separators, sorted keys, UTF-8 text kept
unescaped and, because `allow_nan` is left at its default of `True`, the
non-finite floats rendered as the literals `NaN`, `Infinity` and
`-Infinity`. -/
def jsonDumps : JValue → String
  | .null => "null"
  | .bool true => "true"
  | .bool false => "false"
  | .int n => toString n
  | .str s => jsonQuote s
  | .nan => "NaN"
  | .infinity => "Infinity"
  | .negInfinity => "-Infinity"
  | .arr xs => "[" ++ jsonDumpsItems xs ++ "]"
  | .obj kvs =>
    "\x7b" ++
      joinComma ((sortByKey (jsonDumpsPairs kvs)).map
        (fun p => jsonQuote p.1 ++ ":" ++ p.2)) ++ "\x7d"
termination_by structural v => v

/-- Array elements rendered in order, for `jsonDumps`. -/
def jsonDumpsItems : List JValue → String
  | [] => ""
  | [x] => jsonDumps x
  | x :: y :: xs => jsonDumps x ++ "," ++ jsonDumpsItems (y :: xs)
termination_by structural l => l

/-- Every dict item rendered (key kept, value serialized), for
`jsonDumps`. -/
def jsonDumpsPairs : List (String × JValue) → List (String × String)
  | [] => []
  | (k, v) :: rest => (k, jsonDumps v) :: jsonDumpsPairs rest
termination_by structural l => l

end

/-- The UTF-8 encoding of one character (RFC 3629), as byte values. -/
def utf8CharBytes (c : Char) : List Nat :=
  let n := c.toNat
  if n < 128 then [n]
  else if n < 2048 then [192 + n / 64, 128 + n % 64]
  else if n < 65536 then [224 + n / 4096, 128 + n / 64 % 64, 128 + n % 64]
  else [240 + n / 262144, 128 + n / 4096 % 64, 128 + n / 64 % 64, 128 + n % 64]

/-- Model of `str.encode("utf-8")`: the byte string of a text. -/
def utf8Bytes (s : String) : List Nat :=
  s.data.flatMap utf8CharBytes

/-- Model of `hashlib`: a registry mapping an algorithm name to a digest
function from input bytes to a hex string, `none` when `hashlib.new` would
raise `ValueError` for that name. -/
def HashReg : Type := String → Option (List Nat → String)

namespace HashEvent

/-- Function `canonical_serialize` from `src/hash_event.py`: the canonical JSON byte
sequence of an event (UTF-8, sorted keys, stable separators). -/
def canonical_serialize (event_data : JValue) : List Nat :=
  utf8Bytes (jsonDumps event_data)

/-- Function `hash_event` from `src/hash_event.py`: hex digest of the canonical
serialization under the chosen algorithm; an unknown algorithm is a
`ValueError`. -/
def hash_event (hashNew : HashReg) (event_data : JValue)
    (algorithm : String := "sha256") : Except String String :=
  let data_bytes := canonical_serialize event_data
  match hashNew algorithm with
  | none => .error ("Unsupported hash algorithm: " ++ algorithm)
  | some h => .ok (h data_bytes)

end HashEvent

namespace HashChallenge

/-- Function `canonical_serialize` from `src/hash_challenge.py`: the canonical JSON
byte sequence of a challenge; the code is a verbatim copy of the event
version and both wrap the same `json.dumps` call. -/
def canonical_serialize (challenge_data : JValue) : List Nat :=
  utf8Bytes (jsonDumps challenge_data)

/-- Function `hash_challenge` from `src/hash_challenge.py`: hex digest of the
canonical serialization, a verbatim copy of `hash_event`. -/
def hash_challenge (hashNew : HashReg) (challenge_data : JValue)
    (algorithm : String := "sha256") : Except String String :=
  let data_bytes := canonical_serialize challenge_data
  match hashNew algorithm with
  | none => .error ("Unsupported hash algorithm: " ++ algorithm)
  | some h => .ok (h data_bytes)

end HashChallenge

namespace VerifyIndex

/-- One `Index_Seq error:` line from `verify_index_sequence` in
`src/verify_index.py`, carrying the interpolated data (`expected`, the
observed value, and the entry's `Event_ID`). -/
structure SeqFinding where
  expected : Int
  found : JValue
  eventId : JValue

/-- The loop of `verify_index_sequence` (`src/verify_index.py`): walk the
entries with a running `expected`; on a mismatch record a finding and, when
the observed value `isinstance(seq, int)` (which includes `bool`),
resynchronize `expected` to it; always increment `expected` afterwards. -/
def aux : List Jobj → Int → List SeqFinding
  | [], _ => []
  | entry :: rest, expected =>
    let seq := pyGetD entry "Index_Seq"
    if pyEqIntJ seq expected then
      aux rest (expected + 1)
    else
      ⟨expected, seq, pyGetD entry "Event_ID"⟩ ::
        aux rest
          ((match seq with
            | .int m => m
            | .bool b => if b then 1 else 0
            | _ => expected) + 1)

/-- Function `verify_index_sequence` from `src/verify_index.py`: check that
`Index_Seq` is strictly increasing and gapless starting at 1. -/
def verify_index_sequence (index_data : List Jobj) : List SeqFinding :=
  aux index_data 1

end VerifyIndex

namespace VerifyLedger

/-- One `Index_Seq error:` line from `verify_index_sequence` in
`src/verify_ledger_inntegrity.py`, carrying the interpolated data (the
label, `expected`, the observed value, and the whole entry). -/
structure SeqFinding where
  label : String
  expected : Int
  found : JValue
  entry : Jobj

/-- The loop of `verify_index_sequence` (`src/verify_ledger_inntegrity.py`):
as in `verify_index.py`, but resynchronization attempts `int(seq)` and keeps
`expected` when that raises. -/
def aux (label : String) : List Jobj → Int → List SeqFinding
  | [], _ => []
  | entry :: rest, expected =>
    let seq := pyGetD entry "Index_Seq"
    if pyEqIntJ seq expected then
      aux label rest (expected + 1)
    else
      ⟨label, expected, seq, entry⟩ ::
        aux label rest
          ((match pyIntCast seq with
            | some m => m
            | none => expected) + 1)

/-- Function `verify_index_sequence` from `src/verify_ledger_inntegrity.py`. -/
def verify_index_sequence (index_data : List Jobj) (label : String) :
    List SeqFinding :=
  aux label index_data 1

/-- Outcome of looking a challenge file up in the challenges directory:
absent, unreadable JSON, or loaded data (the file named by the entry's
`Challenge_ID`). -/
inductive FileRes : Type where
  | missing
  | invalid
  | loaded (data : JValue)

/-- One `[CHALLENGE_INDEX]` finding from `verify_challenge_index` in
`src/verify_ledger_inntegrity.py`, carrying the interpolated data of the
corresponding stderr line. -/
inductive CFinding : Type where
  | seqGap (f : SeqFinding)
  | missingIdOrHash (entry : Jobj)
  | missingFile (cid : JValue)
  | loadFail (cid : JValue)
  | hashFail (cid : JValue) (msg : String)
  | hashMismatch (cid : JValue) (indexHash : JValue) (computed : String)
  | dangling (eid : JValue) (cid : JValue)

/-- The per-entry body of the existence + hash + cross-link loop of
`verify_challenge_index`: structural check on `Challenge_ID`/`Hash`, file
existence and load, hash recomputation and comparison, and the dangling
cross-link check — each `continue` of the source ends the entry's list. -/
def checkChallengeEntry (hashNew : HashReg) (fs : JValue → FileRes)
    (known_event_ids : List String) (entry : Jobj) : List CFinding :=
  let challenge_id := pyGetD entry "Challenge_ID"
  let index_hash := pyGetD entry "Hash"
  let challenged_event_id := pyGetD entry "Challenged_Event_ID"
  if pyFalsy challenge_id || pyFalsy index_hash then
    [.missingIdOrHash entry]
  else
    match fs challenge_id with
    | .missing => [.missingFile challenge_id]
    | .invalid => [.loadFail challenge_id]
    | .loaded challenge_data =>
      match HashChallenge.hash_challenge hashNew challenge_data with
      | .error msg => [.hashFail challenge_id msg]
      | .ok computed_hash =>
        (if pyJEqStr index_hash computed_hash then []
         else [.hashMismatch challenge_id index_hash computed_hash]) ++
        (if !pyFalsy challenged_event_id &&
            !(known_event_ids.any (fun k => pyJEqStr challenged_event_id k)) then
          [.dangling challenged_event_id challenge_id]
         else [])

/-- The existence + hash + cross-link loop of `verify_challenge_index`, one
entry after the other. -/
def checkChallengeEntries (hashNew : HashReg) (fs : JValue → FileRes)
    (known_event_ids : List String) : List Jobj → List CFinding
  | [] => []
  | entry :: rest =>
    checkChallengeEntry hashNew fs known_event_ids entry ++
      checkChallengeEntries hashNew fs known_event_ids rest

/-- Function `verify_challenge_index` from `src/verify_ledger_inntegrity.py`:
sequence integrity first, then the per-entry existence, hash and cross-link
checks. -/
def verify_challenge_index (hashNew : HashReg) (fs : JValue → FileRes)
    (index_data : List Jobj) (known_event_ids : List String) : List CFinding :=
  (verify_index_sequence index_data "CHALLENGE_INDEX").map .seqGap ++
    checkChallengeEntries hashNew fs known_event_ids index_data

/-- Whether a finding is the `does not exist in Event index` (dangling
cross-link) one. -/
def isDangling : CFinding → Bool
  | .dangling _ _ => true
  | _ => false

/-- Number of dangling cross-link findings in a report. -/
def countDangling : List CFinding → Nat
  | [] => 0
  | f :: rest => (if isDangling f then 1 else 0) + countDangling rest

end VerifyLedger

namespace VerifyBundle

/-- One `[ERROR]` stderr line of `verify_event_bundle` /
`verify_challenge_bundle` in `src/verify_bundle.py`, carrying the
interpolated data. -/
inductive BFinding : Type where
  | badRecord
  | badHash
  | hashFail (msg : String)
  | recordHashMismatch (bundleHash : String) (computed : String)
  | indexHashMismatch (idxHash : JValue) (bundleHash : String)

/-- Function `verify_event_bundle` from `src/verify_bundle.py`: structural check on
`Event`/`Event_Hash` (failure returns immediately), recomputation of the
event hash, comparison against `Event_Hash`, and — when `Index_Entry` is
present — comparison of `Index_Entry.Hash` against `Event_Hash`; the two
comparisons both run and the returned flag is the accumulated `ok`.
`index_entry.get` on a present non-dict `Index_Entry` is an
`AttributeError`. -/
def verify_event_bundle (hashNew : HashReg) (bundle : Jobj) :
    Except Unit (Bool × List BFinding) :=
  let event := pyGetD bundle "Event"
  let bundle_hash := pyGetD bundle "Event_Hash"
  let index_entry := pyGetD bundle "Index_Entry"
  if isObj event && isNonemptyStr bundle_hash then
    match HashEvent.hash_event hashNew event with
    | .error msg => .ok (false, [.hashFail msg])
    | .ok computed_hash =>
      let bh := strOf bundle_hash
      let okRec := computed_hash == bh
      let recFs := if okRec then [] else [BFinding.recordHashMismatch bh computed_hash]
      if isNull index_entry then .ok (okRec, recFs)
      else
        match index_entry with
        | .obj ie =>
          let idx_hash := pyGetD ie "Hash"
          let okIdx := pyJEqStr idx_hash bh
          let idxFs := if okIdx then [] else [BFinding.indexHashMismatch idx_hash bh]
          .ok (okRec && okIdx, recFs ++ idxFs)
        | _ => .error ()
  else
    .ok (false,
      (if isObj event then [] else [BFinding.badRecord]) ++
        (if isNonemptyStr bundle_hash then [] else [BFinding.badHash]))

/-- Function `verify_challenge_bundle` from `src/verify_bundle.py`: the same checks
over `Challenge`/`Challenge_Hash`. -/
def verify_challenge_bundle (hashNew : HashReg) (bundle : Jobj) :
    Except Unit (Bool × List BFinding) :=
  let challenge := pyGetD bundle "Challenge"
  let bundle_hash := pyGetD bundle "Challenge_Hash"
  let index_entry := pyGetD bundle "Index_Entry"
  if isObj challenge && isNonemptyStr bundle_hash then
    match HashChallenge.hash_challenge hashNew challenge with
    | .error msg => .ok (false, [.hashFail msg])
    | .ok computed_hash =>
      let bh := strOf bundle_hash
      let okRec := computed_hash == bh
      let recFs := if okRec then [] else [BFinding.recordHashMismatch bh computed_hash]
      if isNull index_entry then .ok (okRec, recFs)
      else
        match index_entry with
        | .obj ie =>
          let idx_hash := pyGetD ie "Hash"
          let okIdx := pyJEqStr idx_hash bh
          let idxFs := if okIdx then [] else [BFinding.indexHashMismatch idx_hash bh]
          .ok (okRec && okIdx, recFs ++ idxFs)
        | _ => .error ()
  else
    .ok (false,
      (if isObj challenge then [] else [BFinding.badRecord]) ++
        (if isNonemptyStr bundle_hash then [] else [BFinding.badHash]))

end VerifyBundle

namespace VerifyCoc

/-- Function `is_valid_utc_z` from `src/verify_chain_of_custody.py`: a string ending
in `Z` and containing a `T`. -/
def is_valid_utc_z (ts : JValue) : Bool :=
  match ts with
  | .str s => (s.data.reverse.head? == some 'Z') && s.data.contains 'T'
  | _ => false

/-- One `[ERROR]` stderr line of `verify_chain_of_custody`, carrying the
interpolated data (`i` is the 1-based entry number). -/
inductive Finding : Type where
  | badEventId
  | badEventHash
  | entriesNotList
  | badTimestamp (i : Nat) (ts : JValue)
  | missingHolder (i : Nat)
  | missingRole (i : Nat)
  | missingAction (i : Nat)
  | ordering (i : Nat)

/-- The entry loop of `verify_chain_of_custody`
(`src/verify_chain_of_custody.py`): per entry, validate the timestamp and
the three holder fields, compare the timestamp against the previous one
(Python's `<=`, which raises `TypeError` on incomparable values — modelled
as `Except.error`), and always advance the previous-timestamp tracker to the
current value.  A non-dict entry's `.get` is an `AttributeError`. -/
def loopAux : List JValue → Nat → JValue → Bool →
    Except Unit (Bool × List Finding)
  | [], _, _, ok => .ok (ok, [])
  | e :: rest, i, last_ts, ok =>
    match e with
    | .obj entry =>
      let ts := pyGetD entry "Entry_Timestamp_UTC"
      let f1 := if is_valid_utc_z ts then [] else [Finding.badTimestamp i ts]
      let f2 := if isNonemptyStr (pyGetD entry "Holder_Name") then [] else [Finding.missingHolder i]
      let f3 := if isNonemptyStr (pyGetD entry "Holder_Role") then [] else [Finding.missingRole i]
      let f4 := if isNonemptyStr (pyGetD entry "Action") then [] else [Finding.missingAction i]
      match (if isNull last_ts then Except.ok false else pyLeJ ts last_ts) with
      | .error err => .error err
      | .ok cmp =>
        let f5 := if cmp then [Finding.ordering i] else []
        let fsE := f1 ++ f2 ++ f3 ++ f4 ++ f5
        match loopAux rest (i + 1) ts (ok && fsE.isEmpty) with
        | .error err => .error err
        | .ok (okr, fsr) => .ok (okr, fsE ++ fsr)
    | _ => .error ()

/-- Function `verify_chain_of_custody` from `src/verify_chain_of_custody.py`:
top-level `Event_ID` / `Event_Hash` / `Chain_Of_Custody` checks (a non-list
entries field returns immediately), then the entry loop. -/
def verify_chain_of_custody (coc : Jobj) : Except Unit (Bool × List Finding) :=
  let event_id := pyGetD coc "Event_ID"
  let event_hash := pyGetD coc "Event_Hash"
  let coc_entries := pyGetD coc "Chain_Of_Custody"
  let ok0 := isNonemptyStr event_id && isNonemptyStr event_hash
  let fs0 :=
    (if isNonemptyStr event_id then [] else [Finding.badEventId]) ++
      (if isNonemptyStr event_hash then [] else [Finding.badEventHash])
  match coc_entries with
  | .arr entries =>
    (loopAux entries 1 .null ok0).map (fun p => (p.1, fs0 ++ p.2))
  | _ => .ok (false, fs0 ++ [.entriesNotList])

end VerifyCoc

namespace ExportCoc

/-- The chain-of-custody dict as produced by `init_or_load_coc` in
`src/export_chain_of_custody.py`: the five fixed top-level keys, with the
entries field known to be a list. -/
structure Coc where
  cocVersion : JValue
  eventId : JValue
  eventHash : JValue
  bundleFile : JValue
  entries : List JValue

/-- The `ValueError`s raised by `append_coc_entry`. -/
inductive CocError : Type where
  | recordIdentityMismatch
  | hashIdentityMismatch

/-- The fresh structure returned by `init_or_load_coc` when no file
exists. -/
def init_coc : Coc := ⟨.str "1.0", .null, .null, .null, []⟩

/-- Function `append_coc_entry` from `src/export_chain_of_custody.py`: bind
`Event_ID` when unset, else fail on a differing `event_id`; then the same
for `Event_Hash`; then bind `Evidence_Bundle_File` when unset and append the
new entry.  The returned `Coc` is the state of the dict when the call
returns or raises — mutations made before a raise persist. -/
def append_coc_entry (coc : Coc) (event_id event_hash bundle_file holder_name
    holder_role action location notes now_utc : String) : Coc × Option CocError :=
  let step1 : Coc × Option CocError :=
    if isNull coc.eventId then
      (⟨coc.cocVersion, .str event_id, coc.eventHash, coc.bundleFile, coc.entries⟩, none)
    else if !pyJEqStr coc.eventId event_id then (coc, some .recordIdentityMismatch)
    else (coc, none)
  match step1 with
  | (c, some e) => (c, some e)
  | (c, none) =>
    let step2 : Coc × Option CocError :=
      if isNull c.eventHash then
        (⟨c.cocVersion, c.eventId, .str event_hash, c.bundleFile, c.entries⟩, none)
      else if !pyJEqStr c.eventHash event_hash then (c, some .hashIdentityMismatch)
      else (c, none)
    match step2 with
    | (c2, some e) => (c2, some e)
    | (c2, none) =>
      let c3 : Coc :=
        if isNull c2.bundleFile then
          ⟨c2.cocVersion, c2.eventId, c2.eventHash, .str bundle_file, c2.entries⟩
        else c2
      let entry : JValue := .obj
        [("Entry_Timestamp_UTC", .str now_utc),
         ("Holder_Name", .str holder_name),
         ("Holder_Role", .str holder_role),
         ("Action", .str action),
         ("Location", if location == "" then .null else .str location),
         ("Notes", if notes == "" then .null else .str notes)]
      (⟨c3.cocVersion, c3.eventId, c3.eventHash, c3.bundleFile,
        c3.entries ++ [entry]⟩, none)

end ExportCoc

/-- Rendered pairs in ascending key order. -/
def SortedByKey (l : List (String × String)) : Prop :=
  List.Pairwise (fun a b => keyLe a.1 b.1 = true) l

/-- The entry's `Index_Seq` is a value on which the two sequence audits
resynchronize identically: anything except a string, or a string of ASCII
characters containing no digit.  `int()` accepts a string only if it
contains at least one Unicode decimal digit, and the ASCII decimal digits
are exactly `0`-`9`, so `int()` rejects every such string and the ledger
audit keeps `expected` exactly as the `isinstance(seq, int)` audit does.
Strings with non-ASCII characters are excluded because `int()` also accepts
non-ASCII Unicode digits, on which the two audits diverge. -/
def seqResyncSafe (e : Jobj) : Bool :=
  match pyGetD e "Index_Seq" with
  | .str s => s.data.all (fun c => decide (c.toNat < 128) && !c.isDigit)
  | _ => true

mutual

/-- Equality of JSON values as unordered key/value structures: identical
scalars, arrays equal elementwise in order, and objects (with unique keys,
as parsed dicts have) carrying the same keys mapped to `UEq`-equal values
regardless of key order, at every nesting depth — the `mid` list carries
`kvs1`'s key order with the related values, and the permutation reorders
it into `kvs2`. -/
inductive UEq : JValue → JValue → Prop where
  | null : UEq .null .null
  | bool (b : Bool) : UEq (.bool b) (.bool b)
  | int (n : Int) : UEq (.int n) (.int n)
  | str (s : String) : UEq (.str s) (.str s)
  | nan : UEq .nan .nan
  | infinity : UEq .infinity .infinity
  | negInfinity : UEq .negInfinity .negInfinity
  | arr {xs ys : List JValue} : UEqList xs ys → UEq (.arr xs) (.arr ys)
  | obj {kvs1 mid kvs2 : List (String × JValue)} :
      UEqPairs kvs1 mid → mid.Perm kvs2 → (kvs1.map Prod.fst).Nodup →
      UEq (.obj kvs1) (.obj kvs2)

/-- Pointwise `UEq` on array element lists (element order preserved). -/
inductive UEqList : List JValue → List JValue → Prop where
  | nil : UEqList [] []
  | cons {x y : JValue} {xs ys : List JValue} :
      UEq x y → UEqList xs ys → UEqList (x :: xs) (y :: ys)

/-- Keywise `UEq` on object entry lists: same keys in the same order,
`UEq`-equal values. -/
inductive UEqPairs : List (String × JValue) → List (String × JValue) → Prop where
  | nil : UEqPairs [] []
  | cons (k : String) {x y : JValue} {xs ys : List (String × JValue)} :
      UEq x y → UEqPairs xs ys → UEqPairs ((k, x) :: xs) ((k, y) :: ys)

end

/-- The entries' `Index_Seq` values are exactly the consecutive integers
starting at `n`. -/
def seqIsConsecFrom : List Jobj → Int → Bool
  | [], _ => true
  | e :: rest, n => jIsInt (pyGetD e "Index_Seq") n && seqIsConsecFrom rest (n + 1)

/-- A custody entry dict with the four required fields (used to state the
hand-constructed scenarios of the custody-ordering property). -/
def mkEntryKVs (ts hn hr ac : String) : Jobj :=
  [("Entry_Timestamp_UTC", JValue.str ts), ("Holder_Name", JValue.str hn),
   ("Holder_Role", JValue.str hr), ("Action", JValue.str ac)]

/-- A custody entry value built from `mkEntryKVs`. -/
def mkEntry (ts hn hr ac : String) : JValue :=
  JValue.obj (mkEntryKVs ts hn hr ac)

/-- The entry is a mapping with a valid UTC timestamp and non-empty
`Holder_Name`, `Holder_Role` and `Action` (the per-entry checks of
`verify_chain_of_custody`). -/
def entryOk (e : JValue) : Bool :=
  match e with
  | .obj en =>
    VerifyCoc.is_valid_utc_z (pyGetD en "Entry_Timestamp_UTC") &&
      isNonemptyStr (pyGetD en "Holder_Name") &&
      isNonemptyStr (pyGetD en "Holder_Role") &&
      isNonemptyStr (pyGetD en "Action")
  | _ => false

/-- The timestamp string of a custody entry (empty for entries without a
string timestamp). -/
def tsOf (e : JValue) : String :=
  match e with
  | .obj en => strOf (pyGetD en "Entry_Timestamp_UTC")
  | _ => ""

/-- Entry timestamps strictly increase in list order (each successive pair
fails Python's `next <= previous`). -/
def tsChainInc : List JValue → Bool
  | [] => true
  | [_] => true
  | a :: b :: rest =>
    !(charListLe (tsOf b).data (tsOf a).data) && tsChainInc (b :: rest)

/-- The first entry's timestamp (if any) is strictly greater than `s`. -/
def headTsGt (s : String) : List JValue → Bool
  | [] => true
  | e :: _ => !(charListLe (tsOf e).data s.data)

/-- The entry is a mapping whose timestamp value is a string (the shape on
which the ordering comparison cannot raise). -/
def entryHasStrTs (e : JValue) : Bool :=
  match e with
  | .obj en =>
    match pyGetD en "Entry_Timestamp_UTC" with
    | .str _ => true
    | _ => false
  | _ => false

theorem charListLe_total : ∀ a b : List Char, charListLe a b = true ∨ charListLe b a = true
  | [], _ => Or.inl rfl
  | _ :: _, [] => Or.inr rfl
  | a :: as, b :: bs => by
    simp only [charListLe]
    rcases Nat.lt_trichotomy a.toNat b.toNat with h | h | h
    · left; simp [h]
    · have h2 : ¬ a.toNat < b.toNat := by omega
      have h3 : ¬ b.toNat < a.toNat := by omega
      simp only [h2, h3, if_false, if_neg, ite_false]
      simpa [h2, h3] using charListLe_total as bs
    · right; simp [h, Nat.lt_asymm h]

theorem charListLe_trans : ∀ a b c : List Char,
    charListLe a b = true → charListLe b c = true → charListLe a c = true
  | [], _, _, _, _ => rfl
  | _ :: _, [], _, h, _ => by simp [charListLe] at h
  | _ :: _, _ :: _, [], _, h2 => by simp [charListLe] at h2
  | a :: as, b :: bs, c :: cs, h1, h2 => by
    simp only [charListLe] at h1 h2 ⊢
    by_cases hab : a.toNat < b.toNat <;> by_cases hbc : b.toNat < c.toNat
    · have hac : a.toNat < c.toNat := by omega
      rw [if_pos hac]
    · rw [if_neg hbc] at h2
      by_cases hcb : c.toNat < b.toNat
      · rw [if_pos hcb] at h2; exact absurd h2 (by simp)
      · have hac : a.toNat < c.toNat := by omega
        rw [if_pos hac]
    · rw [if_neg hab] at h1
      by_cases hba : b.toNat < a.toNat
      · rw [if_pos hba] at h1; exact absurd h1 (by simp)
      · have hac : a.toNat < c.toNat := by omega
        rw [if_pos hac]
    · rw [if_neg hab] at h1
      rw [if_neg hbc] at h2
      by_cases hba : b.toNat < a.toNat
      · rw [if_pos hba] at h1; exact absurd h1 (by simp)
      · by_cases hcb : c.toNat < b.toNat
        · rw [if_pos hcb] at h2; exact absurd h2 (by simp)
        · rw [if_neg hba] at h1
          rw [if_neg hcb] at h2
          have hac : ¬ a.toNat < c.toNat := by omega
          have hca : ¬ c.toNat < a.toNat := by omega
          rw [if_neg hac, if_neg hca]
          exact charListLe_trans as bs cs h1 h2

theorem charListLe_antisymm : ∀ a b : List Char,
    charListLe a b = true → charListLe b a = true → a = b
  | [], [], _, _ => rfl
  | [], _ :: _, _, h2 => by simp [charListLe] at h2
  | _ :: _, [], h1, _ => by simp [charListLe] at h1
  | a :: as, b :: bs, h1, h2 => by
    simp only [charListLe] at h1 h2
    by_cases hab : a.toNat < b.toNat
    · rw [if_neg (Nat.lt_asymm hab), if_pos hab] at h2
      exact absurd h2 (by simp)
    · by_cases hba : b.toNat < a.toNat
      · rw [if_neg (Nat.lt_asymm hba), if_pos hba] at h1
        exact absurd h1 (by simp)
      · have hv : a.toNat = b.toNat := by omega
        have hc : a = b := by
          have := congrArg Char.ofNat hv
          rwa [Char.ofNat_toNat, Char.ofNat_toNat] at this
        rw [if_neg hab, if_neg hba] at h1
        rw [if_neg hba, if_neg hab] at h2
        have := charListLe_antisymm as bs h1 h2
        rw [hc, this]

theorem keyLe_total (a b : String) : keyLe a b = true ∨ keyLe b a = true :=
  charListLe_total a.data b.data

theorem keyLe_trans {a b c : String} (h1 : keyLe a b = true) (h2 : keyLe b c = true) :
    keyLe a c = true :=
  charListLe_trans a.data b.data c.data h1 h2

theorem keyLe_antisymm {a b : String} (h1 : keyLe a b = true) (h2 : keyLe b a = true) :
    a = b := by
  cases a with
  | mk da => cases b with
    | mk db => exact congrArg String.mk (charListLe_antisymm da db h1 h2)

theorem orderedInsertKey_perm (x : String × String) :
    ∀ l : List (String × String), (orderedInsertKey x l).Perm (x :: l)
  | [] => List.Perm.refl _
  | y :: ys => by
    simp only [orderedInsertKey]
    by_cases h : keyLe x.1 y.1
    · simp [h]
    · simp only [h, if_false, ite_false]
      exact ((orderedInsertKey_perm x ys).cons y).trans (List.Perm.swap x y ys)

theorem sortByKey_perm : ∀ l : List (String × String), (sortByKey l).Perm l
  | [] => List.Perm.refl _
  | x :: xs =>
    (orderedInsertKey_perm x (sortByKey xs)).trans ((sortByKey_perm xs).cons x)

theorem sortedByKey_orderedInsertKey (x : String × String) :
    ∀ l : List (String × String), SortedByKey l → SortedByKey (orderedInsertKey x l)
  | [], _ => List.pairwise_singleton _ _
  | y :: ys, h => by
    rw [SortedByKey, List.pairwise_cons] at h
    obtain ⟨hy, hys⟩ := h
    simp only [orderedInsertKey]
    by_cases hxy : keyLe x.1 y.1
    · rw [if_pos hxy]
      rw [SortedByKey, List.pairwise_cons]
      refine ⟨?_, List.pairwise_cons.mpr ⟨hy, hys⟩⟩
      intro z hz
      rcases List.mem_cons.mp hz with rfl | hz
      · exact hxy
      · exact keyLe_trans hxy (hy z hz)
    · rw [if_neg hxy]
      rw [SortedByKey, List.pairwise_cons]
      refine ⟨?_, sortedByKey_orderedInsertKey x ys hys⟩
      intro z hz
      rcases List.mem_cons.mp ((orderedInsertKey_perm x ys).mem_iff.mp hz) with hzx | hz
      · rw [hzx]
        rcases keyLe_total x.1 y.1 with h | h
        · exact absurd h hxy
        · exact h
      · exact hy z hz

theorem sortedByKey_sortByKey : ∀ l : List (String × String), SortedByKey (sortByKey l)
  | [] => List.Pairwise.nil
  | x :: xs => sortedByKey_orderedInsertKey x (sortByKey xs) (sortedByKey_sortByKey xs)

theorem sortedKeyPermEq : ∀ l1 l2 : List (String × String), l1.Perm l2 →
    (l1.map Prod.fst).Nodup → SortedByKey l1 → SortedByKey l2 → l1 = l2
  | [], l2, hp, _, _, _ => (hp.symm.eq_nil).symm
  | a :: t1, l2, hp, hnd, hs1, hs2 => by
    cases l2 with
    | nil => exact absurd hp.eq_nil (by simp)
    | cons b t2 =>
      rw [SortedByKey, List.pairwise_cons] at hs1 hs2
      have hab : a = b := by
        have hamem : a ∈ b :: t2 := hp.mem_iff.mp (List.mem_cons_self a t1)
        have hbmem : b ∈ a :: t1 := hp.mem_iff.mpr (List.mem_cons_self b t2)
        rcases List.mem_cons.mp hamem with h | hat2
        · exact h
        · rcases List.mem_cons.mp hbmem with h | hbt1
          · exact h.symm
          · have h1 : keyLe b.1 a.1 = true := hs2.1 a hat2
            have h2 : keyLe a.1 b.1 = true := hs1.1 b hbt1
            have hkey : a.1 = b.1 := keyLe_antisymm h2 h1
            exfalso
            rw [List.map_cons, List.nodup_cons] at hnd
            exact hnd.1 (hkey ▸ List.mem_map_of_mem Prod.fst hbt1)
      subst hab
      have ht : t1.Perm t2 := hp.cons_inv
      have : t1 = t2 := by
        refine sortedKeyPermEq t1 t2 ht ?_ hs1.2 hs2.2
        rw [List.map_cons, List.nodup_cons] at hnd
        exact hnd.2
      rw [this]

theorem jsonDumpsPairs_eq_map : ∀ kvs : List (String × JValue),
    jsonDumpsPairs kvs = kvs.map (fun kv => (kv.1, jsonDumps kv.2))
  | [] => rfl
  | (k, v) :: rest => by
    simp only [jsonDumpsPairs, List.map_cons]
    rw [jsonDumpsPairs_eq_map rest]

theorem jsonDumpsPairs_fst (kvs : List (String × JValue)) :
    (jsonDumpsPairs kvs).map Prod.fst = kvs.map Prod.fst := by
  rw [jsonDumpsPairs_eq_map, List.map_map]
  rfl

theorem jsonDumpsItems_cons (x : JValue) (xs : List JValue) :
    jsonDumpsItems (x :: xs) =
      if xs.isEmpty then jsonDumps x else jsonDumps x ++ "," ++ jsonDumpsItems xs := by
  cases xs <;> rfl

theorem uEqList_isEmpty : ∀ {xs ys : List JValue},
    UEqList xs ys → xs.isEmpty = ys.isEmpty
  | _, _, .nil => rfl
  | _, _, .cons _ _ => rfl

mutual

theorem uEq_dumps : ∀ {v1 v2 : JValue}, UEq v1 v2 → jsonDumps v1 = jsonDumps v2
  | _, _, .null => rfl
  | _, _, .bool _ => rfl
  | _, _, .int _ => rfl
  | _, _, .str _ => rfl
  | _, _, .nan => rfl
  | _, _, .infinity => rfl
  | _, _, .negInfinity => rfl
  | _, _, .arr h => by
    simp only [jsonDumps]
    rw [uEqList_items h]
  | _, _, @UEq.obj kvs1 mid kvs2 hpairs hperm hnd => by
    simp only [jsonDumps]
    have h1 : jsonDumpsPairs kvs1 = jsonDumpsPairs mid := uEqPairs_pairs hpairs
    have h2 : (jsonDumpsPairs mid).Perm (jsonDumpsPairs kvs2) := by
      rw [jsonDumpsPairs_eq_map, jsonDumpsPairs_eq_map]
      exact hperm.map _
    have hperm2 : (jsonDumpsPairs kvs1).Perm (jsonDumpsPairs kvs2) := by
      rw [h1]; exact h2
    have hndp : ((sortByKey (jsonDumpsPairs kvs1)).map Prod.fst).Nodup := by
      have hp : ((sortByKey (jsonDumpsPairs kvs1)).map Prod.fst).Perm
          (kvs1.map Prod.fst) := by
        rw [← jsonDumpsPairs_fst]
        exact (sortByKey_perm _).map _
      exact hp.nodup_iff.mpr hnd
    have heq : sortByKey (jsonDumpsPairs kvs1) = sortByKey (jsonDumpsPairs kvs2) :=
      sortedKeyPermEq _ _
        ((sortByKey_perm _).trans (hperm2.trans (sortByKey_perm _).symm))
        hndp (sortedByKey_sortByKey _) (sortedByKey_sortByKey _)
    rw [heq]

theorem uEqList_items : ∀ {xs ys : List JValue},
    UEqList xs ys → jsonDumpsItems xs = jsonDumpsItems ys
  | _, _, .nil => rfl
  | _, _, .cons hx hrest => by
    rw [jsonDumpsItems_cons, jsonDumpsItems_cons, uEq_dumps hx,
      uEqList_items hrest, uEqList_isEmpty hrest]

theorem uEqPairs_pairs : ∀ {xs ys : List (String × JValue)},
    UEqPairs xs ys → jsonDumpsPairs xs = jsonDumpsPairs ys
  | _, _, .nil => rfl
  | _, _, .cons _ hx hrest => by
    simp only [jsonDumpsPairs]
    rw [uEq_dumps hx, uEqPairs_pairs hrest]

end

/-- Claim C9: the event and challenge hashing pipelines are extensionally
equal: `hash_event` and `hash_challenge` agree (as total `Except`-valued
functions, so they succeed and fail identically) for every record, algorithm
name and hash registry, and the two `canonical_serialize` copies produce
identical bytes on every input. -/
theorem claim_C9_hash_pipelines_equal :
    (∀ (hashNew : HashReg) (r : JValue) (a : String),
      HashEvent.hash_event hashNew r a = HashChallenge.hash_challenge hashNew r a) ∧
    (∀ r : JValue,
      HashEvent.canonical_serialize r = HashChallenge.canonical_serialize r) :=
  ⟨fun _ _ _ => rfl, fun _ => rfl⟩

/-- Claim C1: records that are equal as unordered key/value structures —
the same keys mapped to equal values, regardless of key order at every
nesting depth (`UEq`, which reorders object entries recursively, matching
the recursive key sorting of the encoder) — canonically serialize to
identical bytes; in addition, the top-level special case of a permutation
of a unique-key record with syntactically equal values, and the spec's
concrete `encode` instance. -/
theorem claim_C1_encode_order_independent :
    (∀ v1 v2 : JValue, UEq v1 v2 →
      HashEvent.canonical_serialize v1 = HashEvent.canonical_serialize v2) ∧
    (∀ l1 l2 : Jobj, (l1.map Prod.fst).Nodup → l1.Perm l2 →
      HashEvent.canonical_serialize (.obj l1) = HashEvent.canonical_serialize (.obj l2)) ∧
    HashEvent.canonical_serialize (.obj [("a", .int 1), ("b", .int 2)]) =
      HashEvent.canonical_serialize (.obj [("b", .int 2), ("a", .int 1)]) := by
  refine ⟨?_, ?_, rfl⟩
  · intro v1 v2 h
    show utf8Bytes (jsonDumps v1) = utf8Bytes (jsonDumps v2)
    rw [uEq_dumps h]
  · intro l1 l2 hnd hp
    have hperm : (sortByKey (jsonDumpsPairs l1)).Perm (sortByKey (jsonDumpsPairs l2)) := by
      refine (sortByKey_perm _).trans (.trans ?_ (sortByKey_perm _).symm)
      rw [jsonDumpsPairs_eq_map, jsonDumpsPairs_eq_map]
      exact hp.map _
    have hndp : ((sortByKey (jsonDumpsPairs l1)).map Prod.fst).Nodup := by
      have h1 : ((sortByKey (jsonDumpsPairs l1)).map Prod.fst).Perm (l1.map Prod.fst) := by
        rw [← jsonDumpsPairs_fst]
        exact (sortByKey_perm _).map _
      exact h1.nodup_iff.mpr hnd
    have heq : sortByKey (jsonDumpsPairs l1) = sortByKey (jsonDumpsPairs l2) :=
      sortedKeyPermEq _ _ hperm hndp (sortedByKey_sortByKey _) (sortedByKey_sortByKey _)
    show utf8Bytes (jsonDumps (.obj l1)) = utf8Bytes (jsonDumps (.obj l2))
    simp only [jsonDumps, heq]

/-- Witness for C1: a record with a nested object whose keys are reordered
at both levels (the nested values are in different order inside `"a"`, and
the top-level keys are also swapped) encodes to the same bytes, via the
`UEq` part of the theorem; and the spec's own two-key example via the
top-level-permutation part. -/
theorem claim_C1_witness :
    HashEvent.canonical_serialize
        (JValue.obj [("a", JValue.obj [("x", JValue.int 1), ("y", JValue.int 2)]),
                     ("b", JValue.int 2)]) =
      HashEvent.canonical_serialize
        (JValue.obj [("b", JValue.int 2),
                     ("a", JValue.obj [("y", JValue.int 2), ("x", JValue.int 1)])]) ∧
    HashEvent.canonical_serialize (.obj [("a", .int 1), ("b", .int 2)]) =
      HashEvent.canonical_serialize (.obj [("b", .int 2), ("a", .int 1)]) :=
  ⟨claim_C1_encode_order_independent.1
      (JValue.obj [("a", JValue.obj [("x", JValue.int 1), ("y", JValue.int 2)]),
                   ("b", JValue.int 2)])
      (JValue.obj [("b", JValue.int 2),
                   ("a", JValue.obj [("y", JValue.int 2), ("x", JValue.int 1)])])
      (UEq.obj
        (UEqPairs.cons "a"
          (UEq.obj
            (UEqPairs.cons "x" (UEq.int 1)
              (UEqPairs.cons "y" (UEq.int 2) UEqPairs.nil))
            (List.Perm.swap ("y", JValue.int 2) ("x", JValue.int 1) [])
            (by decide))
          (UEqPairs.cons "b" (UEq.int 2) UEqPairs.nil))
        (List.Perm.swap ("b", JValue.int 2)
          ("a", JValue.obj [("y", JValue.int 2), ("x", JValue.int 1)]) [])
        (by decide)),
   claim_C1_encode_order_independent.2.1
      [("a", JValue.int 1), ("b", JValue.int 2)]
      [("b", JValue.int 2), ("a", JValue.int 1)]
      (by decide) (List.Perm.swap ("b", JValue.int 2) ("a", JValue.int 1) [])⟩

theorem strData_append : ∀ a b : String, (a ++ b).data = a.data ++ b.data
  | ⟨_⟩, ⟨_⟩ => rfl

theorem joinComma_infix : ∀ (parts : List String) (s : String), s ∈ parts →
    ∃ u v, (joinComma parts).data = u ++ s.data ++ v
  | [], s, h => absurd h (List.not_mem_nil s)
  | [x], s, h => by
    rcases List.mem_singleton.mp h with rfl
    exact ⟨[], [], by simp [joinComma]⟩
  | x :: y :: xs, s, h => by
    rcases List.mem_cons.mp h with rfl | h
    · refine ⟨[], ("," ++ joinComma (y :: xs)).data, ?_⟩
      simp only [joinComma, strData_append]
      simp
    · obtain ⟨u, v, hu⟩ := joinComma_infix (y :: xs) s h
      refine ⟨x.data ++ ",".data ++ u, v, ?_⟩
      simp only [joinComma, strData_append, hu]
      simp

/-- Claim C2 (amended): the canonical encoder never fails on non-finite
numbers — `json.dumps` is called with `allow_nan` left at its default, so it
substitutes the literals `NaN`, `Infinity` and `-Infinity` and the encoder
returns the UTF-8 bytes of the resulting text for every record. -/
theorem claim_C2_amended_nonfinite_serialized :
    (∀ d : JValue, HashEvent.canonical_serialize d = utf8Bytes (jsonDumps d)) ∧
    jsonDumps JValue.nan = "NaN" ∧
    jsonDumps JValue.infinity = "Infinity" ∧
    jsonDumps JValue.negInfinity = "-Infinity" ∧
    (∀ (kvs : Jobj) (k : String), (k, JValue.nan) ∈ kvs →
      ∃ u v, (jsonDumps (JValue.obj kvs)).data = u ++ "NaN".data ++ v) := by
  refine ⟨fun _ => rfl, rfl, rfl, rfl, fun kvs k hmem => ?_⟩
  have h1 : (k, "NaN") ∈ jsonDumpsPairs kvs := by
    rw [jsonDumpsPairs_eq_map]
    exact List.mem_map_of_mem (fun kv => (kv.1, jsonDumps kv.2)) hmem
  have h2 : (k, "NaN") ∈ sortByKey (jsonDumpsPairs kvs) :=
    (sortByKey_perm _).mem_iff.mpr h1
  have h3 : jsonQuote k ++ ":" ++ "NaN" ∈
      (sortByKey (jsonDumpsPairs kvs)).map (fun p => jsonQuote p.1 ++ ":" ++ p.2) :=
    List.mem_map_of_mem (fun p => jsonQuote p.1 ++ ":" ++ p.2) h2
  obtain ⟨u, v, hu⟩ := joinComma_infix _ _ h3
  refine ⟨"\x7b".data ++ u ++ (jsonQuote k).data ++ ":".data, v ++ "\x7d".data, ?_⟩
  have hr : (jsonQuote k ++ ":" ++ "NaN").data =
      ((jsonQuote k).data ++ ":".data) ++ "NaN".data := by
    rw [strData_append, strData_append]
  rw [hr] at hu
  simp only [jsonDumps, strData_append, hu]
  simp

/-- Counterexample for C2: a record holding `NaN` is serialized without any
error to a concrete byte string (the bytes of the text `{"a":NaN}`, with the
default substitute literal `NaN`), contradicting "fails with an
EncodingError" and "never returns bytes for such input". -/
theorem claim_C2_counterexample :
    HashEvent.canonical_serialize (JValue.obj [("a", JValue.nan)]) =
      [123, 34, 97, 34, 58, 78, 97, 78, 125] := rfl

/-- Witness for C2 (amended): the text of a one-key record holding `NaN`
contains the substitute literal. -/
theorem claim_C2_witness :
    ∃ u v, (jsonDumps (JValue.obj [("a", JValue.nan)])).data = u ++ "NaN".data ++ v :=
  claim_C2_amended_nonfinite_serialized.2.2.2.2 [("a", JValue.nan)] "a" (List.Mem.head _)

theorem pyStrToInt_none_of_noDigit (s : String)
    (h : ∀ c ∈ s.data, c.isDigit = false) : pyStrToInt s = none := by
  have hsub : ∀ c ∈ ((s.data.dropWhile pyIsSpace).reverse.dropWhile pyIsSpace).reverse,
      c.isDigit = false := by
    intro c hc
    rw [List.mem_reverse] at hc
    have hc2 := List.Sublist.subset (List.dropWhile_sublist _) hc
    rw [List.mem_reverse] at hc2
    exact h c (List.Sublist.subset (List.dropWhile_sublist _) hc2)
  simp only [pyStrToInt]
  split
  · rfl
  · rename_i c rest heq
    by_cases h0 : c = '+'
    · rw [if_pos h0]
      cases rest with
      | nil => rfl
      | cons c2 rest2 =>
        have hc2 : c2.isDigit = false :=
          hsub c2 (by rw [heq]; exact List.mem_cons_of_mem _ (List.mem_cons_self _ _))
        show (if c2.isDigit = true then (pyDigits (c2 :: rest2) 0).map Int.ofNat
          else none) = none
        rw [hc2]
        rfl
    · rw [if_neg h0]
      by_cases h1 : c = '-'
      · rw [if_pos h1]
        cases rest with
        | nil => rfl
        | cons c2 rest2 =>
          have hc2 : c2.isDigit = false :=
            hsub c2 (by rw [heq]; exact List.mem_cons_of_mem _ (List.mem_cons_self _ _))
          show (if c2.isDigit = true then (pyDigits (c2 :: rest2) 0).map
              (fun n => -(n : Int)) else none) = none
          rw [hc2]
          rfl
      · rw [if_neg h1]
        have hcd : c.isDigit = false :=
          hsub c (by rw [heq]; exact List.mem_cons_self _ _)
        rw [hcd]
        rfl

theorem seqAuxAgree : ∀ (entries : List Jobj) (label : String) (e : Int),
    entries.all seqResyncSafe = true →
    (VerifyIndex.aux entries e).map (fun f => (f.expected, f.found)) =
      (VerifyLedger.aux label entries e).map (fun f => (f.expected, f.found)) ∧
    (VerifyIndex.aux entries e).map (fun f => f.eventId) =
      (VerifyLedger.aux label entries e).map (fun f => pyGetD f.entry "Event_ID")
  | [], _, _, _ => ⟨rfl, rfl⟩
  | entry :: rest, label, e, hall => by
    rw [List.all_cons, Bool.and_eq_true] at hall
    obtain ⟨hhd, htl⟩ := hall
    simp only [VerifyIndex.aux, VerifyLedger.aux]
    by_cases hm : pyEqIntJ (pyGetD entry "Index_Seq") e
    · rw [if_pos hm, if_pos hm]
      exact seqAuxAgree rest label (e + 1) htl
    · rw [if_neg hm, if_neg hm]
      have hres :
          (match pyGetD entry "Index_Seq" with
            | .int m => m
            | .bool b => if b then 1 else 0
            | _ => e) =
          (match pyIntCast (pyGetD entry "Index_Seq") with
            | some m => m
            | none => e) := by
        unfold seqResyncSafe at hhd
        cases hv : pyGetD entry "Index_Seq" <;> simp [pyIntCast]
        rename_i s
        rw [hv] at hhd
        simp only [List.all_eq_true, Bool.and_eq_true] at hhd
        have hnd : ∀ c ∈ s.data, c.isDigit = false := by
          intro c hc
          have h2 := (hhd c hc).2
          simpa using h2
        rw [pyStrToInt_none_of_noDigit s hnd]
      rw [hres]
      have ih := seqAuxAgree rest label
        ((match pyIntCast (pyGetD entry "Index_Seq") with
          | some m => m
          | none => e) + 1) htl
      exact ⟨by rw [List.map_cons, List.map_cons, ih.1],
        by rw [List.map_cons, List.map_cons, ih.2]⟩

/-- Claim C10 (amended): on entry lists in which every string-valued
`Index_Seq` consists of ASCII characters and contains no digit — strings
Python's `int()` certainly rejects — the two sequence-audit implementations
flag the same entries with the same expected/found values and the same
entry identities.  On the excluded values the two audits diverge: on
strings `int()` accepts (ASCII digit strings as in the counterexample, and
equally non-ASCII Unicode digit strings such as Arabic-Indic numerals) and
on finite floats (absent from this JSON model), where `isinstance(seq, int)`
is false but `int(seq)` resynchronizes the ledger audit. -/
theorem claim_C10_amended_sequence_audits_agree :
    ∀ (entries : List Jobj) (label : String),
    entries.all seqResyncSafe = true →
    (VerifyIndex.verify_index_sequence entries).map (fun f => (f.expected, f.found)) =
      (VerifyLedger.verify_index_sequence entries label).map (fun f => (f.expected, f.found)) ∧
    (VerifyIndex.verify_index_sequence entries).map (fun f => f.eventId) =
      (VerifyLedger.verify_index_sequence entries label).map
        (fun f => pyGetD f.entry "Event_ID") :=
  fun entries label hall => seqAuxAgree entries label 1 hall

/-- Counterexample for C10: on `Index_Seq = ["2", 3]` the `verify_index.py`
audit does not resynchronize (`isinstance("2", int)` is false) and flags
both entries, while the ledger audit resynchronizes via `int("2")` and flags
only the first — the two implementations do not flag the same entries. -/
theorem claim_C10_counterexample :
    (VerifyIndex.verify_index_sequence
      [[("Index_Seq", JValue.str "2")], [("Index_Seq", JValue.int 3)]]).length = 2 ∧
    (VerifyLedger.verify_index_sequence
      [[("Index_Seq", JValue.str "2")], [("Index_Seq", JValue.int 3)]]
      "EVENT_INDEX").length = 1 :=
  ⟨rfl, rfl⟩

/-- Witness for C10 (amended): a list with a gap and a non-numeric string,
on which both audits emit the same findings. -/
theorem claim_C10_witness :
    (VerifyIndex.verify_index_sequence
        [[("Index_Seq", JValue.int 1)], [("Index_Seq", JValue.str "x")]]).map
        (fun f => (f.expected, f.found)) =
      (VerifyLedger.verify_index_sequence
        [[("Index_Seq", JValue.int 1)], [("Index_Seq", JValue.str "x")]]
        "EVENT_INDEX").map (fun f => (f.expected, f.found)) ∧
    (VerifyIndex.verify_index_sequence
        [[("Index_Seq", JValue.int 1)], [("Index_Seq", JValue.str "x")]]).map
        (fun f => f.eventId) =
      (VerifyLedger.verify_index_sequence
        [[("Index_Seq", JValue.int 1)], [("Index_Seq", JValue.str "x")]]
        "EVENT_INDEX").map (fun f => pyGetD f.entry "Event_ID") :=
  claim_C10_amended_sequence_audits_agree
    [[("Index_Seq", JValue.int 1)], [("Index_Seq", JValue.str "x")]]
    "EVENT_INDEX" (by decide)

/-- Claim C7 (amended): `append_coc_entry` fails with RecordIdentityMismatch
on a bound, differing `Event_ID` and leaves the log completely unmodified;
it fails with HashIdentityMismatch on a bound, differing `Event_Hash`, and
then the log is unmodified except that an `Event_ID` that was still unset at
the start of the same failed call has been newly bound to the supplied
`event_id`.  No entry is ever appended on failure. -/
theorem claim_C7_amended_append_failure_states :
    ∀ (coc : ExportCoc.Coc) (eid eh bf hn hr ac loc nts now : String),
    (isNull coc.eventId = false → pyJEqStr coc.eventId eid = false →
      ExportCoc.append_coc_entry coc eid eh bf hn hr ac loc nts now =
        (coc, some .recordIdentityMismatch)) ∧
    (isNull coc.eventId = false → pyJEqStr coc.eventId eid = true →
      isNull coc.eventHash = false → pyJEqStr coc.eventHash eh = false →
      ExportCoc.append_coc_entry coc eid eh bf hn hr ac loc nts now =
        (coc, some .hashIdentityMismatch)) ∧
    (isNull coc.eventId = true →
      isNull coc.eventHash = false → pyJEqStr coc.eventHash eh = false →
      ExportCoc.append_coc_entry coc eid eh bf hn hr ac loc nts now =
        (⟨coc.cocVersion, .str eid, coc.eventHash, coc.bundleFile, coc.entries⟩,
          some .hashIdentityMismatch)) := by
  intro coc eid eh bf hn hr ac loc nts now
  refine ⟨fun h1 h2 => ?_, fun h1 h2 h3 h4 => ?_, fun h1 h3 h4 => ?_⟩
  · simp [ExportCoc.append_coc_entry, h1, h2]
  · simp [ExportCoc.append_coc_entry, h1, h2, h3, h4]
  · simp [ExportCoc.append_coc_entry, h1, h3, h4]

/-- Counterexample for C7: appending to a log whose `Event_ID` is still
unset but whose `Event_Hash` is bound to `"H1"`, with a differing hash
`"H2"`, fails with HashIdentityMismatch — yet the returned log state has
`Event_ID` newly bound to `"E2"` (it was `null`), so the log is not left
completely unmodified on this failure. -/
theorem claim_C7_counterexample :
    ExportCoc.append_coc_entry
        ⟨JValue.str "1.0", JValue.null, JValue.str "H1", JValue.null, []⟩
        "E2" "H2" "bundle.json" "Alice" "Clerk" "Created" "" ""
        "2025-01-01T00:00:00Z" =
      (⟨JValue.str "1.0", JValue.str "E2", JValue.str "H1", JValue.null, []⟩,
        some ExportCoc.CocError.hashIdentityMismatch) ∧
    JValue.str "E2" ≠ JValue.null :=
  ⟨rfl, fun h => JValue.noConfusion h⟩

/-- Witness for C7 (amended): the three failure shapes at concrete logs —
a log bound to `Event_ID = "E1"` refuses `"E2"` unmodified; a log bound to
`"E1"`/`"H1"` refuses hash `"H2"` unmodified; a log with unset `Event_ID`
and bound hash refuses `"H2"` with only `Event_ID` newly bound. -/
theorem claim_C7_witness :
    ExportCoc.append_coc_entry
        ⟨JValue.str "1.0", JValue.str "E1", JValue.str "H1", JValue.null, []⟩
        "E2" "H1" "b.json" "A" "R" "Created" "" "" "2025-01-01T00:00:00Z" =
      (⟨JValue.str "1.0", JValue.str "E1", JValue.str "H1", JValue.null, []⟩,
        some .recordIdentityMismatch) ∧
    ExportCoc.append_coc_entry
        ⟨JValue.str "1.0", JValue.str "E1", JValue.str "H1", JValue.null, []⟩
        "E1" "H2" "b.json" "A" "R" "Created" "" "" "2025-01-01T00:00:00Z" =
      (⟨JValue.str "1.0", JValue.str "E1", JValue.str "H1", JValue.null, []⟩,
        some .hashIdentityMismatch) ∧
    ExportCoc.append_coc_entry
        ⟨JValue.str "1.0", JValue.null, JValue.str "H1", JValue.null, []⟩
        "E1" "H2" "b.json" "A" "R" "Created" "" "" "2025-01-01T00:00:00Z" =
      (⟨JValue.str "1.0", JValue.str "E1", JValue.str "H1", JValue.null, []⟩,
        some .hashIdentityMismatch) :=
  ⟨(claim_C7_amended_append_failure_states
      ⟨JValue.str "1.0", JValue.str "E1", JValue.str "H1", JValue.null, []⟩
      "E2" "H1" "b.json" "A" "R" "Created" "" "" "2025-01-01T00:00:00Z").1 rfl rfl,
   (claim_C7_amended_append_failure_states
      ⟨JValue.str "1.0", JValue.str "E1", JValue.str "H1", JValue.null, []⟩
      "E1" "H2" "b.json" "A" "R" "Created" "" "" "2025-01-01T00:00:00Z").2.1 rfl rfl rfl rfl,
   (claim_C7_amended_append_failure_states
      ⟨JValue.str "1.0", JValue.null, JValue.str "H1", JValue.null, []⟩
      "E1" "H2" "b.json" "A" "R" "Created" "" "" "2025-01-01T00:00:00Z").2.2 rfl rfl rfl⟩

theorem countDangling_append : ∀ a b : List VerifyLedger.CFinding,
    VerifyLedger.countDangling (a ++ b) =
      VerifyLedger.countDangling a + VerifyLedger.countDangling b
  | [], _ => by simp [VerifyLedger.countDangling]
  | f :: rest, b => by
    simp only [List.cons_append, List.append_eq, VerifyLedger.countDangling]
    rw [countDangling_append rest b]
    omega

theorem countDangling_seqGap_map : ∀ l : List VerifyLedger.SeqFinding,
    VerifyLedger.countDangling (l.map VerifyLedger.CFinding.seqGap) = 0
  | [] => rfl
  | _ :: rest => by
    simp only [List.map_cons, VerifyLedger.countDangling, VerifyLedger.isDangling]
    rw [countDangling_seqGap_map rest]
    simp

theorem checkChallengeEntries_append (hashNew : HashReg)
    (fs : JValue → VerifyLedger.FileRes) (known : List String) :
    ∀ a b : List Jobj,
    VerifyLedger.checkChallengeEntries hashNew fs known (a ++ b) =
      VerifyLedger.checkChallengeEntries hashNew fs known a ++
        VerifyLedger.checkChallengeEntries hashNew fs known b
  | [], _ => by simp [VerifyLedger.checkChallengeEntries]
  | e :: rest, b => by
    simp only [List.cons_append, List.append_eq, VerifyLedger.checkChallengeEntries]
    rw [checkChallengeEntries_append hashNew fs known rest b, List.append_assoc]

theorem checkChallengeEntry_dangling_count (hashNew : HashReg)
    (f : List Nat → String) (fs : JValue → VerifyLedger.FileRes)
    (known : List String) (entry : Jobj) (data : JValue)
    (halg : hashNew "sha256" = some f)
    (hcid : pyFalsy (pyGetD entry "Challenge_ID") = false)
    (hhash : pyFalsy (pyGetD entry "Hash") = false)
    (hfile : fs (pyGetD entry "Challenge_ID") = .loaded data)
    (hceid : pyFalsy (pyGetD entry "Challenged_Event_ID") = false)
    (hknown : known.any (fun k => pyJEqStr (pyGetD entry "Challenged_Event_ID") k) = false) :
    VerifyLedger.countDangling
      (VerifyLedger.checkChallengeEntry hashNew fs known entry) = 1 := by
  simp only [VerifyLedger.checkChallengeEntry, hcid, hhash, Bool.or_self, Bool.false_eq_true,
    if_false, ite_false, hfile, HashChallenge.hash_challenge, halg, hceid, hknown,
    Bool.not_false, Bool.and_self, if_true, ite_true]
  by_cases hm : pyJEqStr (pyGetD entry "Hash") (f (HashChallenge.canonical_serialize data))
  · rw [if_pos hm]
    rfl
  · rw [if_neg hm]
    rfl

/-- Claim C4 (amended): for a challenge-index entry that passes its
structural check, whose challenge file exists and loads, and whose hash
computation succeeds, a non-empty `Challenged_Event_ID` absent from the
known event IDs yields exactly one DanglingReference finding for that entry,
regardless of the outcome of the hash comparison.  (When the entry's file is
missing or unreadable, the `continue` skips the cross-link check — see the
counterexample.) -/
theorem claim_C4_amended_dangling_reference :
    ∀ (hashNew : HashReg) (f : List Nat → String) (fs : JValue → VerifyLedger.FileRes)
      (known : List String) (pre post : List Jobj) (entry : Jobj) (data : JValue),
    hashNew "sha256" = some f →
    pyFalsy (pyGetD entry "Challenge_ID") = false →
    pyFalsy (pyGetD entry "Hash") = false →
    fs (pyGetD entry "Challenge_ID") = .loaded data →
    pyFalsy (pyGetD entry "Challenged_Event_ID") = false →
    known.any (fun k => pyJEqStr (pyGetD entry "Challenged_Event_ID") k) = false →
    VerifyLedger.countDangling
        (VerifyLedger.verify_challenge_index hashNew fs (pre ++ entry :: post) known) =
      VerifyLedger.countDangling
          (VerifyLedger.checkChallengeEntries hashNew fs known pre) + 1 +
        VerifyLedger.countDangling
          (VerifyLedger.checkChallengeEntries hashNew fs known post) := by
  intro hashNew f fs known pre post entry data halg hcid hhash hfile hceid hknown
  rw [VerifyLedger.verify_challenge_index, countDangling_append, countDangling_seqGap_map,
    checkChallengeEntries_append]
  have hcons : VerifyLedger.checkChallengeEntries hashNew fs known (entry :: post) =
      VerifyLedger.checkChallengeEntry hashNew fs known entry ++
        VerifyLedger.checkChallengeEntries hashNew fs known post := rfl
  rw [hcons, countDangling_append, countDangling_append,
    checkChallengeEntry_dangling_count hashNew f fs known entry data
      halg hcid hhash hfile hceid hknown]
  omega

/-- Counterexample for C4: a challenge entry whose `Challenged_Event_ID` is
non-empty and absent from the (empty) list of known event IDs, but whose
challenge file does not exist: the audit reports only the missing file and
emits no DanglingReference finding, because the record-existence failure
`continue`s past the cross-link check. -/
theorem claim_C4_counterexample :
    VerifyLedger.verify_challenge_index (fun _ => some (fun _ => "h"))
        (fun _ => VerifyLedger.FileRes.missing)
        [[("Index_Seq", JValue.int 1), ("Challenge_ID", JValue.str "C1"),
          ("Hash", JValue.str "h0"), ("Challenged_Event_ID", JValue.str "EX")]]
        [] =
      [VerifyLedger.CFinding.missingFile (JValue.str "C1")] := rfl

/-- Witness for C4 (amended): a loadable single-entry index with a dangling
reference yields exactly one DanglingReference finding. -/
theorem claim_C4_witness :
    VerifyLedger.countDangling
        (VerifyLedger.verify_challenge_index (fun _ => some (fun _ => "h"))
          (fun _ => VerifyLedger.FileRes.loaded (JValue.obj []))
          ([] ++
            [("Index_Seq", JValue.int 1), ("Challenge_ID", JValue.str "C1"),
              ("Hash", JValue.str "h0"), ("Challenged_Event_ID", JValue.str "EX")] :: [])
          ["E1"]) =
      VerifyLedger.countDangling
          (VerifyLedger.checkChallengeEntries (fun _ => some (fun _ => "h"))
            (fun _ => VerifyLedger.FileRes.loaded (JValue.obj [])) ["E1"] []) + 1 +
        VerifyLedger.countDangling
          (VerifyLedger.checkChallengeEntries (fun _ => some (fun _ => "h"))
            (fun _ => VerifyLedger.FileRes.loaded (JValue.obj [])) ["E1"] []) :=
  claim_C4_amended_dangling_reference
    (fun _ => some (fun _ => "h")) (fun _ => "h")
    (fun _ => VerifyLedger.FileRes.loaded (JValue.obj [])) ["E1"] [] []
    [("Index_Seq", JValue.int 1), ("Challenge_ID", JValue.str "C1"),
      ("Hash", JValue.str "h0"), ("Challenged_Event_ID", JValue.str "EX")]
    (JValue.obj []) rfl rfl rfl rfl rfl rfl

/-- Claim C5: for bundles passing the structural check (record present as a
mapping, hash a non-empty string) and carrying an `Index_Entry` mapping,
verification performs both the recomputed-hash comparison and the
`Index_Entry.Hash` comparison without short-circuiting: the findings list is
the concatenation of the two independent comparison outcomes (so both
findings appear together when both fail) and the returned `ok` is `true` iff
that list is empty.  This holds for the event and the challenge bundle
verifiers. -/
theorem claim_C5_bundle_checks_no_short_circuit :
    (∀ (hashNew : HashReg) (f : List Nat → String) (bundle : Jobj)
       (e : Jobj) (h : String) (ie : Jobj),
      hashNew "sha256" = some f →
      pyGetD bundle "Event" = .obj e →
      pyGetD bundle "Event_Hash" = .str h → h ≠ "" →
      pyGetD bundle "Index_Entry" = .obj ie →
      VerifyBundle.verify_event_bundle hashNew bundle =
        .ok
          (((if f (HashEvent.canonical_serialize (.obj e)) == h then
              ([] : List VerifyBundle.BFinding)
             else [VerifyBundle.BFinding.recordHashMismatch h (f (HashEvent.canonical_serialize (.obj e)))]) ++
            (if pyJEqStr (pyGetD ie "Hash") h then []
             else [VerifyBundle.BFinding.indexHashMismatch (pyGetD ie "Hash") h])).isEmpty,
           (if f (HashEvent.canonical_serialize (.obj e)) == h then
              ([] : List VerifyBundle.BFinding)
            else [VerifyBundle.BFinding.recordHashMismatch h (f (HashEvent.canonical_serialize (.obj e)))]) ++
            (if pyJEqStr (pyGetD ie "Hash") h then []
             else [VerifyBundle.BFinding.indexHashMismatch (pyGetD ie "Hash") h]))) ∧
    (∀ (hashNew : HashReg) (f : List Nat → String) (bundle : Jobj)
       (c : Jobj) (h : String) (ie : Jobj),
      hashNew "sha256" = some f →
      pyGetD bundle "Challenge" = .obj c →
      pyGetD bundle "Challenge_Hash" = .str h → h ≠ "" →
      pyGetD bundle "Index_Entry" = .obj ie →
      VerifyBundle.verify_challenge_bundle hashNew bundle =
        .ok
          (((if f (HashChallenge.canonical_serialize (.obj c)) == h then
              ([] : List VerifyBundle.BFinding)
             else [VerifyBundle.BFinding.recordHashMismatch h (f (HashChallenge.canonical_serialize (.obj c)))]) ++
            (if pyJEqStr (pyGetD ie "Hash") h then []
             else [VerifyBundle.BFinding.indexHashMismatch (pyGetD ie "Hash") h])).isEmpty,
           (if f (HashChallenge.canonical_serialize (.obj c)) == h then
              ([] : List VerifyBundle.BFinding)
            else [VerifyBundle.BFinding.recordHashMismatch h (f (HashChallenge.canonical_serialize (.obj c)))]) ++
            (if pyJEqStr (pyGetD ie "Hash") h then []
             else [VerifyBundle.BFinding.indexHashMismatch (pyGetD ie "Hash") h]))) := by
  constructor
  · intro hashNew f bundle e h ie halg hev hhash hne hie
    have hb : (h == "") = false := beq_eq_false_iff_ne.mpr hne
    simp only [VerifyBundle.verify_event_bundle, hev, hhash, hie, isObj, isNonemptyStr,
      isNull, strOf, hb, Bool.not_false, Bool.and_self, if_true, ite_true,
      HashEvent.hash_event, halg]
    by_cases hr : f (HashEvent.canonical_serialize (.obj e)) == h <;>
      by_cases hi : pyJEqStr (pyGetD ie "Hash") h <;>
        simp [hr, hi]
  · intro hashNew f bundle c h ie halg hev hhash hne hie
    have hb : (h == "") = false := beq_eq_false_iff_ne.mpr hne
    simp only [VerifyBundle.verify_challenge_bundle, hev, hhash, hie, isObj, isNonemptyStr,
      isNull, strOf, hb, Bool.not_false, Bool.and_self, if_true, ite_true,
      HashChallenge.hash_challenge, halg]
    by_cases hr : f (HashChallenge.canonical_serialize (.obj c)) == h <;>
      by_cases hi : pyJEqStr (pyGetD ie "Hash") h <;>
        simp [hr, hi]

/-- Witness for C5: a bundle whose recomputed hash and whose
`Index_Entry.Hash` both disagree with the stored hash yields both findings
together and `ok = false`, for both bundle kinds. -/
theorem claim_C5_witness :
    VerifyBundle.verify_event_bundle (fun _ => some (fun _ => "X"))
        [("Event", JValue.obj []), ("Event_Hash", JValue.str "h0"),
         ("Index_Entry", JValue.obj [("Hash", JValue.str "h1")])] =
      .ok (false,
        [VerifyBundle.BFinding.recordHashMismatch "h0" "X",
         VerifyBundle.BFinding.indexHashMismatch (JValue.str "h1") "h0"]) ∧
    VerifyBundle.verify_challenge_bundle (fun _ => some (fun _ => "X"))
        [("Challenge", JValue.obj []), ("Challenge_Hash", JValue.str "h0"),
         ("Index_Entry", JValue.obj [("Hash", JValue.str "h1")])] =
      .ok (false,
        [VerifyBundle.BFinding.recordHashMismatch "h0" "X",
         VerifyBundle.BFinding.indexHashMismatch (JValue.str "h1") "h0"]) := by
  constructor
  · have h1 := claim_C5_bundle_checks_no_short_circuit.1
      (fun _ => some (fun _ => "X")) (fun _ => "X")
      [("Event", JValue.obj []), ("Event_Hash", JValue.str "h0"),
       ("Index_Entry", JValue.obj [("Hash", JValue.str "h1")])]
      [] "h0" [("Hash", JValue.str "h1")] rfl rfl rfl (by decide) rfl
    exact h1.trans (by rfl)
  · have h2 := claim_C5_bundle_checks_no_short_circuit.2
      (fun _ => some (fun _ => "X")) (fun _ => "X")
      [("Challenge", JValue.obj []), ("Challenge_Hash", JValue.str "h0"),
       ("Index_Entry", JValue.obj [("Hash", JValue.str "h1")])]
      [] "h0" [("Hash", JValue.str "h1")] rfl rfl rfl (by decide) rfl
    exact h2.trans (by rfl)

theorem jIsInt_eq {v : JValue} {n : Int} (h : jIsInt v n = true) : v = .int n := by
  cases v <;> simp [jIsInt] at h
  rw [h]

theorem vIndexAuxSkip : ∀ (l1 l2 : List Jobj) (e : Int),
    seqIsConsecFrom l1 e = true →
    VerifyIndex.aux (l1 ++ l2) e = VerifyIndex.aux l2 (e + l1.length)
  | [], l2, e, _ => by simp
  | entry :: rest, l2, e, h => by
    rw [seqIsConsecFrom, Bool.and_eq_true] at h
    obtain ⟨h1, h2⟩ := h
    have hseq : pyGetD entry "Index_Seq" = .int e := jIsInt_eq h1
    rw [List.cons_append]
    simp only [VerifyIndex.aux, hseq]
    rw [if_pos (by simp [pyEqIntJ])]
    rw [vIndexAuxSkip rest l2 (e + 1) h2]
    congr 1
    simp only [List.length_cons]
    push_cast
    omega

theorem vIndexAuxConsec (l : List Jobj) (e : Int) (h : seqIsConsecFrom l e = true) :
    VerifyIndex.aux l e = [] := by
  have hskip := vIndexAuxSkip l [] e h
  rw [List.append_nil] at hskip
  rw [hskip]
  rfl

theorem vLedgerAuxSkip : ∀ (l1 l2 : List Jobj) (label : String) (e : Int),
    seqIsConsecFrom l1 e = true →
    VerifyLedger.aux label (l1 ++ l2) e = VerifyLedger.aux label l2 (e + l1.length)
  | [], l2, label, e, _ => by simp
  | entry :: rest, l2, label, e, h => by
    rw [seqIsConsecFrom, Bool.and_eq_true] at h
    obtain ⟨h1, h2⟩ := h
    have hseq : pyGetD entry "Index_Seq" = .int e := jIsInt_eq h1
    rw [List.cons_append]
    simp only [VerifyLedger.aux, hseq]
    rw [if_pos (by simp [pyEqIntJ])]
    rw [vLedgerAuxSkip rest l2 label (e + 1) h2]
    congr 1
    simp only [List.length_cons]
    push_cast
    omega

theorem vLedgerAuxConsec (l : List Jobj) (label : String) (e : Int)
    (h : seqIsConsecFrom l e = true) : VerifyLedger.aux label l e = [] := by
  have hskip := vLedgerAuxSkip l [] label e h
  rw [List.append_nil] at hskip
  rw [hskip]
  rfl

/-- Claim C3: the sequence audit walks the entries with `expected = 1`,
flags exactly the entries whose `Index_Seq` differs from `expected`,
resynchronizes on an observed integer and always increments: consecutive
sequences starting at 1 yield no findings, and a single gap (consecutive
prefix, one entry with an observed integer `m ≠ ` its expected value, then
consecutive from `m + 1`) yields exactly one finding with the expected value
and the observed `m` — the following entries are not additionally flagged.
Both implementations of `verify_index_sequence` satisfy this. -/
theorem claim_C3_sequence_audit :
    (∀ l : List Jobj, seqIsConsecFrom l 1 = true →
      VerifyIndex.verify_index_sequence l = [] ∧
      ∀ label, VerifyLedger.verify_index_sequence l label = []) ∧
    (∀ (pre post : List Jobj) (g : Jobj) (m : Int),
      seqIsConsecFrom pre 1 = true →
      pyGetD g "Index_Seq" = .int m →
      m ≠ 1 + pre.length →
      seqIsConsecFrom post (m + 1) = true →
      VerifyIndex.verify_index_sequence (pre ++ g :: post) =
        [⟨1 + pre.length, .int m, pyGetD g "Event_ID"⟩] ∧
      ∀ label, VerifyLedger.verify_index_sequence (pre ++ g :: post) label =
        [⟨label, 1 + pre.length, .int m, g⟩]) := by
  constructor
  · intro l hl
    exact ⟨vIndexAuxConsec l 1 hl, fun label => vLedgerAuxConsec l label 1 hl⟩
  · intro pre post g m hpre hg hne hpost
    have hb : (m == 1 + (pre.length : Int)) = false := beq_eq_false_iff_ne.mpr hne
    constructor
    · rw [VerifyIndex.verify_index_sequence, vIndexAuxSkip pre (g :: post) 1 hpre]
      simp only [VerifyIndex.aux, hg]
      rw [if_neg (by simp [pyEqIntJ, hb])]
      rw [vIndexAuxConsec post (m + 1) hpost]
    · intro label
      rw [VerifyLedger.verify_index_sequence, vLedgerAuxSkip pre (g :: post) label 1 hpre]
      simp only [VerifyLedger.aux, hg]
      rw [if_neg (by simp [pyEqIntJ, hb])]
      simp only [pyIntCast]
      rw [vLedgerAuxConsec post label (m + 1) hpost]

/-- Witness for C3: `Index_Seq = [1,2,3]` yields no findings and
`Index_Seq = [1,3,4]` yields exactly one finding (expected 2, found 3), for
both implementations. -/
theorem claim_C3_witness :
    (VerifyIndex.verify_index_sequence
        [[("Index_Seq", JValue.int 1), ("Event_ID", JValue.str "E1")],
         [("Index_Seq", JValue.int 2), ("Event_ID", JValue.str "E2")],
         [("Index_Seq", JValue.int 3), ("Event_ID", JValue.str "E3")]] = [] ∧
      VerifyLedger.verify_index_sequence
        [[("Index_Seq", JValue.int 1), ("Event_ID", JValue.str "E1")],
         [("Index_Seq", JValue.int 2), ("Event_ID", JValue.str "E2")],
         [("Index_Seq", JValue.int 3), ("Event_ID", JValue.str "E3")]]
        "EVENT_INDEX" = []) ∧
    (VerifyIndex.verify_index_sequence
        [[("Index_Seq", JValue.int 1), ("Event_ID", JValue.str "E1")],
         [("Index_Seq", JValue.int 3), ("Event_ID", JValue.str "E2")],
         [("Index_Seq", JValue.int 4), ("Event_ID", JValue.str "E3")]] =
        [⟨2, JValue.int 3, JValue.str "E2"⟩] ∧
      VerifyLedger.verify_index_sequence
        [[("Index_Seq", JValue.int 1), ("Event_ID", JValue.str "E1")],
         [("Index_Seq", JValue.int 3), ("Event_ID", JValue.str "E2")],
         [("Index_Seq", JValue.int 4), ("Event_ID", JValue.str "E3")]]
        "EVENT_INDEX" =
        [⟨"EVENT_INDEX", 2, JValue.int 3,
          [("Index_Seq", JValue.int 3), ("Event_ID", JValue.str "E2")]⟩]) := by
  constructor
  · exact ⟨(claim_C3_sequence_audit.1 _ (by decide)).1,
      (claim_C3_sequence_audit.1 _ (by decide)).2 "EVENT_INDEX"⟩
  · constructor
    · exact ((claim_C3_sequence_audit.2
        [[("Index_Seq", JValue.int 1), ("Event_ID", JValue.str "E1")]]
        [[("Index_Seq", JValue.int 4), ("Event_ID", JValue.str "E3")]]
        [("Index_Seq", JValue.int 3), ("Event_ID", JValue.str "E2")] 3
        (by decide) rfl (by decide) (by decide)).1).trans (by rfl)
    · exact (((claim_C3_sequence_audit.2
        [[("Index_Seq", JValue.int 1), ("Event_ID", JValue.str "E1")]]
        [[("Index_Seq", JValue.int 4), ("Event_ID", JValue.str "E3")]]
        [("Index_Seq", JValue.int 3), ("Event_ID", JValue.str "E2")] 3
        (by decide) rfl (by decide) (by decide)).2) "EVENT_INDEX").trans (by rfl)

theorem is_valid_str : ∀ {ts : JValue},
    VerifyCoc.is_valid_utc_z ts = true → ∃ s, ts = JValue.str s
  | .str s, _ => ⟨s, rfl⟩
  | .null, h => by simp [VerifyCoc.is_valid_utc_z] at h
  | .bool b, h => by simp [VerifyCoc.is_valid_utc_z] at h
  | .int n, h => by simp [VerifyCoc.is_valid_utc_z] at h
  | .nan, h => by simp [VerifyCoc.is_valid_utc_z] at h
  | .infinity, h => by simp [VerifyCoc.is_valid_utc_z] at h
  | .negInfinity, h => by simp [VerifyCoc.is_valid_utc_z] at h
  | .arr xs, h => by simp [VerifyCoc.is_valid_utc_z] at h
  | .obj kvs, h => by simp [VerifyCoc.is_valid_utc_z] at h

theorem entryOk_fields : ∀ {e : JValue}, entryOk e = true →
    ∃ en s, e = JValue.obj en ∧ pyGetD en "Entry_Timestamp_UTC" = JValue.str s ∧
      VerifyCoc.is_valid_utc_z (JValue.str s) = true ∧
      isNonemptyStr (pyGetD en "Holder_Name") = true ∧
      isNonemptyStr (pyGetD en "Holder_Role") = true ∧
      isNonemptyStr (pyGetD en "Action") = true ∧
      tsOf (JValue.obj en) = s
  | .obj en, h => by
    simp only [entryOk, Bool.and_eq_true] at h
    obtain ⟨⟨⟨hv, hn⟩, hr⟩, ha⟩ := h
    obtain ⟨s, hts⟩ := is_valid_str hv
    exact ⟨en, s, rfl, hts, hts ▸ hv, hn, hr, ha, by simp [tsOf, hts, strOf]⟩
  | .null, h => by simp [entryOk] at h
  | .bool b, h => by simp [entryOk] at h
  | .int n, h => by simp [entryOk] at h
  | .str s, h => by simp [entryOk] at h
  | .nan, h => by simp [entryOk] at h
  | .infinity, h => by simp [entryOk] at h
  | .negInfinity, h => by simp [entryOk] at h
  | .arr xs, h => by simp [entryOk] at h

theorem cocLoopOk : ∀ (l : List JValue) (i : Nat) (last : JValue) (ok : Bool),
    l.all entryOk = true →
    tsChainInc l = true →
    (last = JValue.null ∨ ∃ s, last = JValue.str s ∧ headTsGt s l = true) →
    VerifyCoc.loopAux l i last ok = .ok (ok, [])
  | [], _, _, _, _, _, _ => rfl
  | e :: rest, i, last, ok, hall, hchain, hlast => by
    rw [List.all_cons, Bool.and_eq_true] at hall
    obtain ⟨hok, hall2⟩ := hall
    obtain ⟨en, s, he, hts, hvalid, hhn, hhr, hac, htsof⟩ := entryOk_fields hok
    subst he
    have hcmp : (if isNull last then Except.ok false
        else pyLeJ (JValue.str s) last) = Except.ok false := by
      rcases hlast with rfl | ⟨s0, rfl, hgt⟩
      · rfl
      · simp only [isNull, Bool.false_eq_true, if_false, ite_false, pyLeJ]
        simp only [headTsGt, htsof, Bool.not_eq_eq_eq_not, Bool.not_true] at hgt
        rw [hgt]
    have hchain2 : tsChainInc rest = true := by
      cases rest with
      | nil => rfl
      | cons b tl =>
        rw [tsChainInc, Bool.and_eq_true] at hchain
        exact hchain.2
    have hinv2 : (JValue.str s : JValue) = JValue.null ∨
        ∃ s0, (JValue.str s : JValue) = JValue.str s0 ∧ headTsGt s0 rest = true := by
      refine Or.inr ⟨s, rfl, ?_⟩
      cases rest with
      | nil => rfl
      | cons b tl =>
        rw [tsChainInc, Bool.and_eq_true] at hchain
        rw [headTsGt]
        rw [htsof] at hchain
        exact hchain.1
    simp only [VerifyCoc.loopAux, hts, hvalid, hhn, hhr, hac, if_true, ite_true, hcmp]
    simp only [Bool.false_eq_true, if_false, ite_false, List.append_nil, List.nil_append,
      List.isEmpty_nil, Bool.and_true]
    rw [cocLoopOk rest (i + 1) (JValue.str s) ok hall2 hchain2 hinv2]

theorem pyGetD_mk_ts (ts hn hr ac : String) :
    pyGetD (mkEntryKVs ts hn hr ac) "Entry_Timestamp_UTC" = JValue.str ts := rfl

theorem pyGetD_mk_hn (ts hn hr ac : String) :
    pyGetD (mkEntryKVs ts hn hr ac) "Holder_Name" = JValue.str hn := rfl

theorem pyGetD_mk_hr (ts hn hr ac : String) :
    pyGetD (mkEntryKVs ts hn hr ac) "Holder_Role" = JValue.str hr := rfl

theorem pyGetD_mk_ac (ts hn hr ac : String) :
    pyGetD (mkEntryKVs ts hn hr ac) "Action" = JValue.str ac := rfl

/-- Claim C6: a custody log with valid top-level identity fields whose
entries are all well-formed and carry strictly increasing timestamps
verifies `ok` with no findings; and a log hand-constructed with the
timestamps in order T2, T1, T3 (where T1 < T2 < T3, one out-of-order entry)
yields exactly one ordering finding, on entry 2 only — the
previous-timestamp tracker advances to T1, so entry 3 is not additionally
flagged. -/
theorem claim_C6_custody_ordering :
    (∀ (coc : Jobj) (l : List JValue),
      isNonemptyStr (pyGetD coc "Event_ID") = true →
      isNonemptyStr (pyGetD coc "Event_Hash") = true →
      pyGetD coc "Chain_Of_Custody" = .arr l →
      l.all entryOk = true →
      tsChainInc l = true →
      VerifyCoc.verify_chain_of_custody coc = .ok (true, [])) ∧
    (∀ (coc : Jobj) (t1 t2 t3 hn1 hr1 ac1 hn2 hr2 ac2 hn3 hr3 ac3 : String),
      isNonemptyStr (pyGetD coc "Event_ID") = true →
      isNonemptyStr (pyGetD coc "Event_Hash") = true →
      pyGetD coc "Chain_Of_Custody" =
        .arr [mkEntry t2 hn1 hr1 ac1, mkEntry t1 hn2 hr2 ac2, mkEntry t3 hn3 hr3 ac3] →
      entryOk (mkEntry t2 hn1 hr1 ac1) = true →
      entryOk (mkEntry t1 hn2 hr2 ac2) = true →
      entryOk (mkEntry t3 hn3 hr3 ac3) = true →
      charListLe t2.data t1.data = false →
      charListLe t3.data t2.data = false →
      VerifyCoc.verify_chain_of_custody coc =
        .ok (false, [VerifyCoc.Finding.ordering 2])) := by
  constructor
  · intro coc l hid hhash harr hall hchain
    simp only [VerifyCoc.verify_chain_of_custody, hid, hhash, harr, if_true, ite_true,
      Bool.and_self, List.append_nil, List.nil_append]
    rw [cocLoopOk l 1 JValue.null true hall hchain (Or.inl rfl)]
    rfl
  · intro coc t1 t2 t3 hn1 hr1 ac1 hn2 hr2 ac2 hn3 hr3 ac3 hid hhash harr he1 he2 he3
      hlt12 hlt23
    have hle12 : charListLe t1.data t2.data = true := by
      rcases charListLe_total t1.data t2.data with h | h
      · exact h
      · exact absurd h (by rw [hlt12]; simp)
    have hle31 : charListLe t3.data t1.data = false := by
      by_cases h : charListLe t3.data t1.data = true
      · exact absurd (charListLe_trans t3.data t1.data t2.data h hle12) (by rw [hlt23]; simp)
      · exact Bool.not_eq_true _ ▸ h
    simp only [entryOk, mkEntry, pyGetD_mk_ts, pyGetD_mk_hn, pyGetD_mk_hr, pyGetD_mk_ac,
      Bool.and_eq_true] at he1 he2 he3
    obtain ⟨⟨⟨hv1, hhn1⟩, hhr1⟩, hac1⟩ := he1
    obtain ⟨⟨⟨hv2, hhn2⟩, hhr2⟩, hac2⟩ := he2
    obtain ⟨⟨⟨hv3, hhn3⟩, hhr3⟩, hac3⟩ := he3
    have h1 : VerifyCoc.loopAux
        [mkEntry t2 hn1 hr1 ac1, mkEntry t1 hn2 hr2 ac2, mkEntry t3 hn3 hr3 ac3]
        1 JValue.null true = .ok (false, [VerifyCoc.Finding.ordering 2]) := by
      simp [VerifyCoc.loopAux, mkEntry, pyGetD_mk_ts, pyGetD_mk_hn, pyGetD_mk_hr,
        pyGetD_mk_ac, hv1, hhn1, hhr1, hac1, hv2, hhn2, hhr2, hac2, hv3, hhn3, hhr3,
        hac3, isNull, pyLeJ, hle12, hle31]
    simp only [VerifyCoc.verify_chain_of_custody, hid, hhash, harr, if_true, ite_true,
      Bool.and_self, List.append_nil, List.nil_append]
    rw [h1]
    rfl

/-- Witness for C6: concrete logs — strictly increasing timestamps verify
`ok`; the T2-before-T1 log yields exactly the one ordering finding on entry
2. -/
theorem claim_C6_witness :
    VerifyCoc.verify_chain_of_custody
        [("Event_ID", JValue.str "E"), ("Event_Hash", JValue.str "H"),
         ("Chain_Of_Custody", JValue.arr
           [mkEntry "2025-01-01T00:00:01Z" "A" "Parent" "Created",
            mkEntry "2025-01-01T00:00:02Z" "B" "Attorney" "Transferred",
            mkEntry "2025-01-01T00:00:03Z" "C" "Court_Clerk" "Submitted_to_Court"])] =
      .ok (true, []) ∧
    VerifyCoc.verify_chain_of_custody
        [("Event_ID", JValue.str "E"), ("Event_Hash", JValue.str "H"),
         ("Chain_Of_Custody", JValue.arr
           [mkEntry "2025-01-01T00:00:02Z" "A" "Parent" "Created",
            mkEntry "2025-01-01T00:00:01Z" "B" "Attorney" "Transferred",
            mkEntry "2025-01-01T00:00:03Z" "C" "Court_Clerk" "Submitted_to_Court"])] =
      .ok (false, [VerifyCoc.Finding.ordering 2]) :=
  ⟨claim_C6_custody_ordering.1
      [("Event_ID", JValue.str "E"), ("Event_Hash", JValue.str "H"),
       ("Chain_Of_Custody", JValue.arr
         [mkEntry "2025-01-01T00:00:01Z" "A" "Parent" "Created",
          mkEntry "2025-01-01T00:00:02Z" "B" "Attorney" "Transferred",
          mkEntry "2025-01-01T00:00:03Z" "C" "Court_Clerk" "Submitted_to_Court"])]
      [mkEntry "2025-01-01T00:00:01Z" "A" "Parent" "Created",
       mkEntry "2025-01-01T00:00:02Z" "B" "Attorney" "Transferred",
       mkEntry "2025-01-01T00:00:03Z" "C" "Court_Clerk" "Submitted_to_Court"]
      rfl rfl rfl (by decide) (by decide),
   claim_C6_custody_ordering.2
      [("Event_ID", JValue.str "E"), ("Event_Hash", JValue.str "H"),
       ("Chain_Of_Custody", JValue.arr
         [mkEntry "2025-01-01T00:00:02Z" "A" "Parent" "Created",
          mkEntry "2025-01-01T00:00:01Z" "B" "Attorney" "Transferred",
          mkEntry "2025-01-01T00:00:03Z" "C" "Court_Clerk" "Submitted_to_Court"])]
      "2025-01-01T00:00:01Z" "2025-01-01T00:00:02Z" "2025-01-01T00:00:03Z"
      "A" "Parent" "Created" "B" "Attorney" "Transferred"
      "C" "Court_Clerk" "Submitted_to_Court"
      rfl rfl rfl (by decide) (by decide) (by decide) (by decide) (by decide)⟩

theorem cocLoopNoError : ∀ (l : List JValue) (i : Nat) (last : JValue) (ok : Bool),
    l.all entryHasStrTs = true →
    (last = JValue.null ∨ ∃ s, last = JValue.str s) →
    ∃ r, VerifyCoc.loopAux l i last ok = .ok r
  | [], _, _, ok, _, _ => ⟨(ok, []), rfl⟩
  | e :: rest, i, last, ok, hall, hlast => by
    rw [List.all_cons, Bool.and_eq_true] at hall
    obtain ⟨hok, hall2⟩ := hall
    obtain ⟨en, he, s, hts⟩ : ∃ en, e = JValue.obj en ∧
        ∃ s, pyGetD en "Entry_Timestamp_UTC" = JValue.str s := by
      cases e <;> simp [entryHasStrTs] at hok
      case obj en =>
        refine ⟨en, rfl, ?_⟩
        rcases hv : pyGetD en "Entry_Timestamp_UTC" <;> rw [hv] at hok <;>
          simp at hok
        case str s => exact ⟨s, rfl⟩
    subst he
    have hcmp : ∃ c, (if isNull last then Except.ok false
        else pyLeJ (pyGetD en "Entry_Timestamp_UTC") last) = Except.ok c := by
      rcases hlast with rfl | ⟨s0, rfl⟩
      · exact ⟨false, rfl⟩
      · rw [hts]
        exact ⟨charListLe s.data s0.data, rfl⟩
    obtain ⟨c, hc⟩ := hcmp
    simp only [VerifyCoc.loopAux, hc]
    split
    · rename_i err heq
      obtain ⟨r2, hr2⟩ := cocLoopNoError rest (i + 1) (pyGetD en "Entry_Timestamp_UTC") _
        hall2 (Or.inr ⟨s, hts⟩)
      rw [hr2] at heq
      exact absurd heq (by simp)
    · exact ⟨_, rfl⟩

/-- Claim C8 (amended): for every custody log whose entries field is a list
of mappings each carrying a string-valued timestamp, verification runs to
completion without raising, accumulating its findings; the timestamp-order
comparison can raise `TypeError` when a non-string timestamp follows a
string one (see the counterexample), which is why the string-timestamp
proviso is needed; a malformed (non-list) entries field still aborts
immediately with a terminal result. -/
theorem claim_C8_amended_verify_no_raise :
    ∀ (coc : Jobj) (l : List JValue),
    pyGetD coc "Chain_Of_Custody" = .arr l →
    l.all entryHasStrTs = true →
    ∃ r, VerifyCoc.verify_chain_of_custody coc = .ok r := by
  intro coc l harr hall
  obtain ⟨r, hr⟩ := cocLoopNoError l 1 JValue.null
    (isNonemptyStr (pyGetD coc "Event_ID") && isNonemptyStr (pyGetD coc "Event_Hash"))
    hall (Or.inl rfl)
  refine ⟨(r.1,
    ((if isNonemptyStr (pyGetD coc "Event_ID") then [] else [VerifyCoc.Finding.badEventId]) ++
      (if isNonemptyStr (pyGetD coc "Event_Hash") then []
       else [VerifyCoc.Finding.badEventHash])) ++ r.2), ?_⟩
  simp only [VerifyCoc.verify_chain_of_custody, harr, hr, Except.map]

/-- Counterexample for C8: a custody log whose entries field is a list, with
a well-formed first entry and a second entry that merely lacks its timestamp
(all other violations of that entry would be accumulable findings): the
ordering comparison `None <= str` raises `TypeError` and verification does
not run to completion — the missing-timestamp violation is not accumulated
and reported. -/
theorem claim_C8_counterexample :
    VerifyCoc.verify_chain_of_custody
        [("Event_ID", JValue.str "E"), ("Event_Hash", JValue.str "H"),
         ("Chain_Of_Custody", JValue.arr
           [mkEntry "2025-01-01T00:00:01Z" "A" "Parent" "Created",
            JValue.obj [("Holder_Name", JValue.str "B"),
                        ("Holder_Role", JValue.str "Attorney"),
                        ("Action", JValue.str "Transferred")]])] =
      .error () := rfl

/-- Witness for C8 (amended): a log whose second entry has a malformed (but
string) timestamp, a missing holder name and an ordering problem still
verifies to completion with an `ok`/findings result. -/
theorem claim_C8_witness :
    ∃ r, VerifyCoc.verify_chain_of_custody
        [("Event_ID", JValue.str "E"), ("Event_Hash", JValue.str "H"),
         ("Chain_Of_Custody", JValue.arr
           [mkEntry "2025-01-02T00:00:00Z" "A" "Parent" "Created",
            JValue.obj [("Entry_Timestamp_UTC", JValue.str "not a timestamp"),
                        ("Holder_Role", JValue.str "Attorney")]])] = .ok r :=
  claim_C8_amended_verify_no_raise
    [("Event_ID", JValue.str "E"), ("Event_Hash", JValue.str "H"),
     ("Chain_Of_Custody", JValue.arr
       [mkEntry "2025-01-02T00:00:00Z" "A" "Parent" "Created",
        JValue.obj [("Entry_Timestamp_UTC", JValue.str "not a timestamp"),
                    ("Holder_Role", JValue.str "Attorney")]])]
    [mkEntry "2025-01-02T00:00:00Z" "A" "Parent" "Created",
     JValue.obj [("Entry_Timestamp_UTC", JValue.str "not a timestamp"),
                 ("Holder_Role", JValue.str "Attorney")]]
    rfl (by decide)
